import Mathlib

/-!
# Gola Score Keeper: schema, request models and router

A shallow embedding of the five Go source files:

* `cmd/setup/main.go`: the SQLite schema (`createTables`, `createIndexes`, `main`);
* `internal/models/*.go`: the request structs and their `binding` tags;
* `cmd/server/main.go`: the routes registered on the gin router and their handlers.

The SQL text of the source is embedded as data (`TableSchema`, `Index`, `Stmt`) and
given the meaning SQLite documents for it: `CREATE ... IF NOT EXISTS`, column
constraints checked on `INSERT`, rowids up to `2^63 - 1`, foreign keys enforced only on a
connection that has switched them on.  Values of SQL type `REAL` and Go type `float64` are
kept as rationals.

The handlers of `POST /api/penalty-shots` and `GET /api/leaderboard` are placeholders in
the source.  What the source does is stated on `serve`; the attempt-recording engine and
the ranking engine are modelled from the specification (`recordAttempt`,
`getLeaderboard`), each definition marked as such.
-/

namespace GolaScoreKeeper

/-! ## SQLite values and catalog -/

/-- A value held in a column, by storage class. -/
inductive SqlValue where
  | null
  | integer (i : Int)
  | real (q : ℚ)
  | text (s : String)
  deriving DecidableEq

/-- Declared column types that occur in the schema. -/
inductive ColType where
  | INTEGER
  | TEXT
  | REAL
  | DATETIME
  deriving DecidableEq

/-- The expression of a `DEFAULT` clause. -/
inductive DefaultExpr where
  | lit (v : SqlValue)
  | currentTimestamp
  deriving DecidableEq

/-- One column definition with its column constraints. `checkIn` is the list of a
`CHECK (col IN (...))` constraint. -/
structure Column where
  name : String
  type : ColType
  primaryKey : Bool
  autoincrement : Bool
  unique : Bool
  notNull : Bool
  checkIn : Option (List String)
  dflt : Option DefaultExpr
  deriving DecidableEq

/-- A table constraint `FOREIGN KEY (column) REFERENCES refTable(refColumn)`. -/
structure ForeignKey where
  column : String
  refTable : String
  refColumn : String
  deriving DecidableEq

/-- The definition part of a `CREATE TABLE` statement. -/
structure TableSchema where
  name : String
  columns : List Column
  foreignKeys : List ForeignKey
  deriving DecidableEq

/-- A stored row: column name and value, in column order. -/
abbrev Row := List (String × SqlValue)

/-- The value of column `c` in row `r` (`NULL` when the row has no such column). -/
def Row.get (r : Row) (c : String) : SqlValue :=
  (r.lookup c).getD SqlValue.null

/-- A table of the database file: its definition, its rows, and the largest rowid ever
handed out (the `sqlite_sequence` entry that `AUTOINCREMENT` keeps). -/
structure Table where
  schema : TableSchema
  rows : List Row
  seq : Int
  deriving DecidableEq

/-- The definition part of a `CREATE INDEX` statement on one column. -/
structure Index where
  name : String
  table : String
  column : String
  desc : Bool
  deriving DecidableEq

/-- The persistent content of the database file. -/
structure Database where
  journalMode : String
  tables : List Table
  indexes : List Index
  deriving DecidableEq

/-- A freshly created, empty database file. -/
def Database.empty : Database :=
  { journalMode := "delete", tables := [], indexes := [] }

/-- Per-connection settings. SQLite does not store these in the file: every connection
starts with foreign key enforcement off. -/
structure Connection where
  foreignKeys : Bool
  deriving DecidableEq

/-- The table named `n`, if the catalog has one. -/
def Database.findTable (db : Database) (n : String) : Option Table :=
  db.tables.find? (fun t => t.schema.name == n)

/-- Whether the catalog has a table named `n`. -/
def Database.hasTable (db : Database) (n : String) : Bool :=
  db.tables.any (fun t => t.schema.name == n)

/-- Whether the catalog has an index named `n`. -/
def Database.hasIndex (db : Database) (n : String) : Bool :=
  db.indexes.any (fun i => i.name == n)

/-- The rows of table `n` (none when the table does not exist). -/
def Database.rowsOf (db : Database) (n : String) : List Row :=
  match db.findTable n with
  | some t => t.rows
  | none => []

/-! ## Statements executed by cmd/setup -/

/-- The kinds of SQL statement a program can send. -/
inductive StmtKind where
  | pragma
  | createTable
  | createIndex
  | insert
  | update
  | delete
  | dropTable
  deriving DecidableEq

/-- The statements that occur in the source. -/
inductive Stmt where
  | pragmaJournalMode (mode : String)
  | createTableIfNotExists (t : TableSchema)
  | createIndexIfNotExists (i : Index)
  deriving DecidableEq

/-- The kind of a statement. -/
def Stmt.kind : Stmt → StmtKind
  | Stmt.pragmaJournalMode _ => StmtKind.pragma
  | Stmt.createTableIfNotExists _ => StmtKind.createTable
  | Stmt.createIndexIfNotExists _ => StmtKind.createIndex

/-- Run one statement (`db.Exec`). A failing statement leaves the file as it was. -/
def exec (s : Stmt) (db : Database) : Except String Database :=
  match s with
  | Stmt.pragmaJournalMode mode => Except.ok { db with journalMode := mode }
  | Stmt.createTableIfNotExists t =>
    if db.hasTable t.name then Except.ok db
    else if db.hasIndex t.name then
      Except.error ("there is already an index named " ++ t.name)
    else Except.ok { db with tables := db.tables ++ [{ schema := t, rows := [], seq := 0 }] }
  | Stmt.createIndexIfNotExists i =>
    if db.hasIndex i.name then Except.ok db
    else if db.hasTable i.name then
      Except.error ("there is already a table named " ++ i.name)
    else
      match db.findTable i.table with
      | none => Except.error ("no such table: " ++ i.table)
      | some t =>
        if t.schema.columns.any (fun c => c.name == i.column) then
          Except.ok { db with indexes := db.indexes ++ [i] }
        else Except.error ("no such column: " ++ i.column)

/-- A plain column without constraints. -/
def plainColumn (name : String) (type : ColType) : Column :=
  { name := name, type := type, primaryKey := false, autoincrement := false,
    unique := false, notNull := false, checkIn := none, dflt := none }

/-- The table of `contestantsSQL`. -/
def contestantsSQL : TableSchema :=
  { name := "contestants"
    columns :=
      [ { plainColumn "id" ColType.INTEGER with primaryKey := true, autoincrement := true },
        { plainColumn "badge_id" ColType.TEXT with unique := true, notNull := true },
        { plainColumn "name" ColType.TEXT with notNull := true },
        plainColumn "company" ColType.TEXT,
        plainColumn "email" ColType.TEXT,
        plainColumn "phone" ColType.TEXT,
        { plainColumn "created_at" ColType.DATETIME with
            dflt := some DefaultExpr.currentTimestamp },
        { plainColumn "updated_at" ColType.DATETIME with
            dflt := some DefaultExpr.currentTimestamp } ]
    foreignKeys := [] }

/-- The table of `penaltyShotsSQL`. -/
def penaltyShotsSQL : TableSchema :=
  { name := "penalty_shots"
    columns :=
      [ { plainColumn "id" ColType.INTEGER with primaryKey := true, autoincrement := true },
        { plainColumn "contestant_id" ColType.INTEGER with notNull := true },
        { plainColumn "shot_result" ColType.TEXT with
            notNull := true, checkIn := some ["goal", "miss"] },
        { plainColumn "attempt_number" ColType.INTEGER with notNull := true },
        { plainColumn "timestamp" ColType.DATETIME with
            dflt := some DefaultExpr.currentTimestamp },
        plainColumn "operator_id" ColType.TEXT,
        plainColumn "session_id" ColType.TEXT ]
    foreignKeys :=
      [ { column := "contestant_id", refTable := "contestants", refColumn := "id" } ] }

/-- The table of `leaderboardCacheSQL`. -/
def leaderboardCacheSQL : TableSchema :=
  { name := "leaderboard_cache"
    columns :=
      [ { plainColumn "contestant_id" ColType.INTEGER with primaryKey := true },
        { plainColumn "total_attempts" ColType.INTEGER with
            dflt := some (DefaultExpr.lit (SqlValue.integer 0)) },
        { plainColumn "successful_shots" ColType.INTEGER with
            dflt := some (DefaultExpr.lit (SqlValue.integer 0)) },
        { plainColumn "success_percentage" ColType.REAL with
            dflt := some (DefaultExpr.lit (SqlValue.real 0)) },
        { plainColumn "last_updated" ColType.DATETIME with
            dflt := some DefaultExpr.currentTimestamp } ]
    foreignKeys :=
      [ { column := "contestant_id", refTable := "contestants", refColumn := "id" } ] }

/-- The `createTables` function: three statements, stopping at the first error. The
database is returned together with the error, since earlier statements keep their effect. -/
def createTables (db : Database) : Database × Option String :=
  match exec (Stmt.createTableIfNotExists contestantsSQL) db with
  | Except.error e => (db, some ("failed to create contestants table: " ++ e))
  | Except.ok db1 =>
    match exec (Stmt.createTableIfNotExists penaltyShotsSQL) db1 with
    | Except.error e => (db1, some ("failed to create penalty_shots table: " ++ e))
    | Except.ok db2 =>
      match exec (Stmt.createTableIfNotExists leaderboardCacheSQL) db2 with
      | Except.error e => (db2, some ("failed to create leaderboard_cache table: " ++ e))
      | Except.ok db3 => (db3, none)

/-- The `indexes` slice of `createIndexes`. -/
def indexes : List Index :=
  [ { name := "idx_contestants_badge_id", table := "contestants", column := "badge_id",
      desc := false },
    { name := "idx_penalty_shots_contestant_id", table := "penalty_shots",
      column := "contestant_id", desc := false },
    { name := "idx_penalty_shots_timestamp", table := "penalty_shots", column := "timestamp",
      desc := false },
    { name := "idx_leaderboard_success_percentage", table := "leaderboard_cache",
      column := "success_percentage", desc := true } ]

/-- The loop of `createIndexes` over the remaining statements. -/
def createIndexesLoop : List Index → Database → Database × Option String
  | [], db => (db, none)
  | i :: rest, db =>
    match exec (Stmt.createIndexIfNotExists i) db with
    | Except.error e => (db, some ("failed to create index: " ++ e))
    | Except.ok db1 => createIndexesLoop rest db1

/-- The `createIndexes` function. -/
def createIndexes (db : Database) : Database × Option String :=
  createIndexesLoop indexes db

/-- The connection `sql.Open("sqlite3", dbPath)` gives for a plain file path: the
driver defaults, foreign key enforcement off. -/
def sqlOpen : Connection :=
  { foreignKeys := false }

/-- The body of `main` in cmd/setup on the database file at `dbPath`: switch the journal to
WAL, create the tables, create the indexes; `log.Fatalf` ends the run at the first error.
Returns the file as the run leaves it and the fatal message, if any. -/
def setupMain (db : Database) : Database × Option String :=
  match exec (Stmt.pragmaJournalMode "wal") db with
  | Except.error e => (db, some ("Failed to enable WAL mode: " ++ e))
  | Except.ok db1 =>
    match createTables db1 with
    | (db2, some e) => (db2, some ("Failed to create tables: " ++ e))
    | (db2, none) =>
      match createIndexes db2 with
      | (db3, some e) => (db3, some ("Failed to create indexes: " ++ e))
      | (db3, none) => (db3, none)

/-- Every statement cmd/setup sends, in order. -/
def setupStatements : List Stmt :=
  [ Stmt.pragmaJournalMode "wal",
    Stmt.createTableIfNotExists contestantsSQL,
    Stmt.createTableIfNotExists penaltyShotsSQL,
    Stmt.createTableIfNotExists leaderboardCacheSQL ] ++
  indexes.map Stmt.createIndexIfNotExists

/-- The database cmd/setup creates when no file exists yet. -/
def setupDb : Database :=
  (setupMain Database.empty).1

/-! ## INSERT under the column and table constraints -/

/-- Why SQLite refuses an `INSERT`. -/
inductive SqlError where
  | noSuchTable
  | noSuchColumn
  | datatypeMismatch
  | notNullFailed
  | checkFailed
  | uniqueFailed
  | foreignKeyFailed
  | full
  deriving DecidableEq

/-- Whether `c` is an `INTEGER PRIMARY KEY` column, that is, the rowid of its table. -/
def Column.isRowid (c : Column) : Bool :=
  c.primaryKey && c.type == ColType.INTEGER

/-- The largest integer stored in column `pk`, 0 for an empty table. -/
def maxRowid (pk : String) (rows : List Row) : Int :=
  rows.foldl (fun m r => match r.get pk with
    | SqlValue.integer i => max m i
    | _ => m) 0

/-- The largest rowid SQLite hands out, `2^63 - 1`. -/
def maxRowidValue : Int := 9223372036854775807

/-- The largest integer stored in column `pk`, if the table stores one. -/
def largestRowid (pk : String) (rows : List Row) : Option Int :=
  rows.foldl (fun m r => match r.get pk, m with
    | SqlValue.integer i, some k => some (max k i)
    | SqlValue.integer i, none => some i
    | _, m => m) none

/-- The smallest positive integer not stored in column `pk`. -/
def unusedRowid (pk : String) (rows : List Row) : Option Int :=
  ((List.range (rows.length + 1)).find? (fun i =>
    rows.all (fun r => r.get pk != SqlValue.integer ((i : Int) + 1)))).map
      (fun i => (i : Int) + 1)

/-- The rowid given to a row inserted without one. With `AUTOINCREMENT` it is one more
than the largest rowid the table ever held; once that is `2^63 - 1` the statement fails
with `SQLITE_FULL`. Without `AUTOINCREMENT` it is one more than the largest rowid now
stored, and 1 in an empty table; once that is `2^63 - 1` SQLite tries unused positive keys
at random, of which the smallest stands here for the one it finds. -/
def nextRowid (t : Table) (c : Column) : Except SqlError Int :=
  if c.autoincrement then
    if max t.seq (maxRowid c.name t.rows) < maxRowidValue then
      Except.ok (max t.seq (maxRowid c.name t.rows) + 1)
    else Except.error SqlError.full
  else
    match largestRowid c.name t.rows with
    | none => Except.ok 1
    | some m =>
      if m < maxRowidValue then Except.ok (m + 1)
      else
        match unusedRowid c.name t.rows with
        | some k => Except.ok k
        | none => Except.error SqlError.full

/-- The value a column gets before constraints are checked: the supplied value, else the
`DEFAULT`, else `NULL`; a rowid column left `NULL` is given the next rowid, and takes
integers only. -/
def fillColumn (t : Table) (now : String) (supplied : Row) (c : Column) :
    Except SqlError SqlValue :=
  let v := match supplied.lookup c.name with
    | some v => v
    | none =>
      match c.dflt with
      | some (DefaultExpr.lit d) => d
      | some DefaultExpr.currentTimestamp => SqlValue.text now
      | none => SqlValue.null
  if c.isRowid then
    match v with
    | SqlValue.null =>
      match nextRowid t c with
      | Except.ok k => Except.ok (SqlValue.integer k)
      | Except.error e => Except.error e
    | SqlValue.integer i => Except.ok (SqlValue.integer i)
    | _ => Except.error SqlError.datatypeMismatch
  else Except.ok v

/-- The row to be stored, one value per column of the table. -/
def buildRow (t : Table) (now : String) (supplied : Row) : List Column → Except SqlError Row
  | [] => Except.ok []
  | c :: cs =>
    match fillColumn t now supplied c with
    | Except.error e => Except.error e
    | Except.ok v =>
      match buildRow t now supplied cs with
      | Except.error e => Except.error e
      | Except.ok r => Except.ok ((c.name, v) :: r)

/-- The check `NOT NULL` (a primary key of this schema is a rowid, never `NULL`). -/
def notNullOk (row : Row) (c : Column) : Bool :=
  !c.notNull || row.get c.name != SqlValue.null

/-- The check `CHECK (col IN (...))`: it fails only when the expression is false; on
`NULL` the expression is `NULL` and the check passes. -/
def checkOk (row : Row) (c : Column) : Bool :=
  match c.checkIn with
  | none => true
  | some allowed =>
    match row.get c.name with
    | SqlValue.null => true
    | SqlValue.text s => allowed.contains s
    | _ => false

/-- The check `UNIQUE` or `PRIMARY KEY`: no stored row has the same non-null value. -/
def uniqueOk (rows : List Row) (row : Row) (c : Column) : Bool :=
  !(c.primaryKey || c.unique) || row.get c.name == SqlValue.null ||
    rows.all (fun r => r.get c.name != row.get c.name)

/-- The check of one `FOREIGN KEY` clause against the parent table. -/
def foreignKeyOk (db : Database) (row : Row) (fk : ForeignKey) : Bool :=
  row.get fk.column == SqlValue.null ||
    (db.rowsOf fk.refTable).any (fun r => r.get fk.refColumn == row.get fk.column)

/-- Replace the first table named `n`. -/
def replaceTable (n : String) (t2 : Table) : List Table → List Table
  | [] => []
  | t :: ts => if t.schema.name == n then t2 :: ts else t :: replaceTable n t2 ts

/-- The table after `row` is stored. -/
def Table.push (t : Table) (row : Row) : Table :=
  { t with
    rows := t.rows ++ [row]
    seq := t.schema.columns.foldl (fun m c =>
      if c.isRowid && c.autoincrement then
        match row.get c.name with
        | SqlValue.integer i => max m i
        | _ => m
      else m) t.seq }

/-- Run `INSERT INTO tn (columns of supplied) VALUES (values of supplied)` at time `now`
on connection `conn`. -/
def insert (conn : Connection) (db : Database) (tn : String) (supplied : Row)
    (now : String) : Except SqlError Database :=
  match db.findTable tn with
  | none => Except.error SqlError.noSuchTable
  | some t =>
    if !supplied.all (fun p => t.schema.columns.any (fun c => c.name == p.1)) then
      Except.error SqlError.noSuchColumn
    else
      match buildRow t now supplied t.schema.columns with
      | Except.error e => Except.error e
      | Except.ok row =>
        if !t.schema.columns.all (notNullOk row) then Except.error SqlError.notNullFailed
        else if !t.schema.columns.all (checkOk row) then Except.error SqlError.checkFailed
        else if !t.schema.columns.all (uniqueOk t.rows row) then
          Except.error SqlError.uniqueFailed
        else if conn.foreignKeys && !t.schema.foreignKeys.all (foreignKeyOk db row) then
          Except.error SqlError.foreignKeyFailed
        else Except.ok { db with tables := replaceTable tn (t.push row) db.tables }

/-- Whether the statement is accepted. -/
def insertAccepted (conn : Connection) (db : Database) (tn : String) (supplied : Row)
    (now : String) : Bool :=
  match insert conn db tn supplied now with
  | Except.ok _ => true
  | Except.error _ => false

/-- The file after the statement: changed when accepted, as before when refused. -/
def insertResult (conn : Connection) (db : Database) (tn : String) (supplied : Row)
    (now : String) : Database :=
  match insert conn db tn supplied now with
  | Except.ok db2 => db2
  | Except.error _ => db

/-- The columns a program supplies for a penalty shot: the `db` tags of `PenaltyShot`
other than `id` and `timestamp`, which the table fills in. -/
def shotRow (contestantId : Int) (shotResult : String) (attemptNumber : Int) : Row :=
  [ ("contestant_id", SqlValue.integer contestantId),
    ("shot_result", SqlValue.text shotResult),
    ("attempt_number", SqlValue.integer attemptNumber) ]

/-- The database after cmd/setup and one registered contestant with id 1. -/
def oneContestantDb : Database :=
  insertResult sqlOpen setupDb "contestants"
    [("badge_id", SqlValue.text "B-1"), ("name", SqlValue.text "Ada")] "t0"

/-! ## Request models (internal/models) and their binding tags -/

/-- The value of a struct field handed to the validator. -/
inductive FieldValue where
  | int (i : Int)
  | str (s : String)
  deriving DecidableEq

/-- The validator rules that occur in `binding` tags. -/
inductive Rule where
  | required
  | oneof (options : List String)
  | min (n : Int)
  deriving DecidableEq

/-- Whether a value passes a rule: `required` refuses the zero value, `oneof` compares
the value (an integer in decimal) with the options, `min` bounds a number or the length
of a string. -/
def Rule.passes : Rule → FieldValue → Bool
  | Rule.required, FieldValue.int i => i != 0
  | Rule.required, FieldValue.str s => s != ""
  | Rule.oneof options, FieldValue.str s => options.contains s
  | Rule.oneof options, FieldValue.int i => options.contains (toString i)
  | Rule.min n, FieldValue.int i => decide (n ≤ i)
  | Rule.min n, FieldValue.str s => decide (n ≤ (s.length : Int))

/-- A struct passes when every field passes every rule of its tag. -/
def validate (fields : List (FieldValue × List Rule)) : Bool :=
  fields.all (fun f => f.2.all (fun r => r.passes f.1))

/-- The struct `ShotRequest`. -/
structure ShotRequest where
  ContestantID : Int
  ShotResult : String
  AttemptNumber : Int
  OperatorID : String
  SessionID : String
  deriving DecidableEq

/-- The `binding` tag of `ShotRequest.ShotResult`: `required,oneof=goal miss`. -/
def shotResultBinding : List Rule :=
  [Rule.required, Rule.oneof ["goal", "miss"]]

/-- The `binding` tag of `ShotRequest.AttemptNumber`: `required,min=1`. -/
def attemptNumberBinding : List Rule :=
  [Rule.required, Rule.min 1]

/-- The fields of a `ShotRequest` with the rules of their `binding` tags. -/
def ShotRequest.bindings (r : ShotRequest) : List (FieldValue × List Rule) :=
  [ (FieldValue.int r.ContestantID, [Rule.required]),
    (FieldValue.str r.ShotResult, shotResultBinding),
    (FieldValue.int r.AttemptNumber, attemptNumberBinding),
    (FieldValue.str r.OperatorID, []),
    (FieldValue.str r.SessionID, []) ]

/-- Validation of a bound `ShotRequest`. -/
def ShotRequest.valid (r : ShotRequest) : Bool :=
  validate r.bindings

/-- The struct `LeaderboardRequest`. -/
structure LeaderboardRequest where
  Filter : String
  Limit : Int
  deriving DecidableEq

/-- The fields of a `LeaderboardRequest`: neither carries a `binding` tag. -/
def LeaderboardRequest.bindings (r : LeaderboardRequest) : List (FieldValue × List Rule) :=
  [ (FieldValue.str r.Filter, []),
    (FieldValue.int r.Limit, []) ]

/-- Validation of a bound `LeaderboardRequest`. -/
def LeaderboardRequest.valid (r : LeaderboardRequest) : Bool :=
  validate r.bindings

/-- The struct `LeaderboardEntry`. -/
structure LeaderboardEntry where
  ContestantID : Int
  Name : String
  Company : String
  TotalAttempts : Int
  SuccessfulShots : Int
  SuccessPercentage : ℚ
  LastUpdated : String
  deriving DecidableEq

/-- The struct `LeaderboardResponse`. -/
structure LeaderboardResponse where
  Entries : List LeaderboardEntry
  Total : Int
  Filter : String
  deriving DecidableEq

/-! ## The router of cmd/server -/

/-- HTTP methods. -/
inductive Method where
  | GET
  | POST
  | PUT
  | DELETE
  | OPTIONS
  | HEAD
  | PATCH
  deriving DecidableEq

/-- An incoming request. -/
structure Request where
  method : Method
  path : String
  query : List (String × String)
  body : String
  deriving DecidableEq

/-- What a handler writes: a JSON object (`gin.H`, every value in the source is a
string), a rendered template, a file from disk, or nothing. -/
inductive Body where
  | json (fields : List (String × String))
  | html (template : String) (data : List (String × String))
  | file (path : String)
  | none
  deriving DecidableEq

/-- A response. -/
structure Response where
  status : Nat
  headers : List (String × String)
  body : Body
  deriving DecidableEq

/-- A handler sees the request and the database file and returns what it writes and the
file as it leaves it. -/
abbrev Handler := Request → Database → (Nat × Body) × Database

/-- A registered route; `wildcard` marks the `/*filepath` route of `router.Static`. -/
structure Route where
  method : Method
  path : String
  wildcard : Bool
  handler : Handler

/-- The package variable `Version`. -/
def Version : String := "dev"

/-- The package variable `BuildTime`. -/
def BuildTime : String := "unknown"

/-- The package variable `GitCommit`. -/
def GitCommit : String := "unknown"

/-- A handler of the source that answers `c.JSON(200, gin.H ...)` and does nothing else. -/
def jsonHandler (fields : List (String × String)) : Handler :=
  fun _ db => ((200, Body.json fields), db)

/-- The handler of `/static/*filepath`: the file below `./web/static`. -/
def staticHandler : Handler :=
  fun req db => ((200, Body.file ("./web/static" ++ (req.path.drop 7))), db)

/-- The routes `main` registers, in order. -/
def routes : List Route :=
  [ { method := Method.GET, path := "/health", wildcard := false,
      handler := jsonHandler [("status", "ok"), ("version", Version),
        ("buildTime", BuildTime), ("gitCommit", GitCommit)] },
    { method := Method.GET, path := "/api/contestants", wildcard := false,
      handler := jsonHandler [("message", "Contestants endpoint - to be implemented")] },
    { method := Method.POST, path := "/api/penalty-shots", wildcard := false,
      handler := jsonHandler [("message", "Penalty shots endpoint - to be implemented")] },
    { method := Method.GET, path := "/api/leaderboard", wildcard := false,
      handler := jsonHandler [("message", "Leaderboard endpoint - to be implemented")] },
    { method := Method.POST, path := "/api/scan-badge", wildcard := false,
      handler := jsonHandler [("message", "Badge scanning endpoint - to be implemented")] },
    { method := Method.GET, path := "/ws/leaderboard", wildcard := false,
      handler := jsonHandler
        [("message", "WebSocket leaderboard endpoint - to be implemented")] },
    { method := Method.GET, path := "/ws/scoring", wildcard := false,
      handler := jsonHandler [("message", "WebSocket scoring endpoint - to be implemented")] },
    { method := Method.GET, path := "/static/", wildcard := true, handler := staticHandler },
    { method := Method.HEAD, path := "/static/", wildcard := true, handler := staticHandler },
    { method := Method.GET, path := "/", wildcard := false,
      handler := fun _ db =>
        ((200, Body.html "dashboard.html" [("title", "Goal Score Keeper")]), db) } ]

/-- The headers the CORS middleware sets on every response. -/
def corsHeaders : List (String × String) :=
  [ ("Access-Control-Allow-Origin", "*"),
    ("Access-Control-Allow-Methods", "GET, POST, PUT, DELETE, OPTIONS"),
    ("Access-Control-Allow-Headers", "Content-Type, Authorization") ]

/-- Whether a route answers a request. -/
def Route.isMatch (r : Route) (req : Request) : Bool :=
  r.method == req.method &&
    (if r.wildcard then req.path.startsWith r.path else req.path == r.path)

/-- The server on one request: the CORS middleware (which ends `OPTIONS` requests with
204), then the first matching route, else 404. The logger and recovery middleware write
no response; the router's redirect for a trailing slash is left out. -/
def serve (req : Request) (db : Database) : Response × Database :=
  if req.method == Method.OPTIONS then
    ({ status := 204, headers := corsHeaders, body := Body.none }, db)
  else
    match routes.find? (fun r => r.isMatch req) with
    | some r =>
      let out := r.handler req db
      ({ status := out.1.1, headers := corsHeaders, body := out.1.2 }, out.2)
    | none => ({ status := 404, headers := corsHeaders, body := Body.none }, db)

/-- The server on a sequence of requests, in order. -/
def serveAll : List Request → Database → Database
  | [], db => db
  | req :: rest, db => serveAll rest (serve req db).2

/-- The request `GET /api/leaderboard?filter=..&limit=..`. -/
def leaderboardQuery (filter : String) (limit : Int) : Request :=
  { method := Method.GET, path := "/api/leaderboard",
    query := [("filter", filter), ("limit", toString limit)], body := "" }

/-- The request `POST /api/penalty-shots` with a JSON body for `(c, n, r)`. -/
def shotSubmission (c : Int) (n : Int) (r : String) : Request :=
  { method := Method.POST, path := "/api/penalty-shots", query := [],
    body := "contestant_id=" ++ toString c ++ " attempt_number=" ++ toString n ++
      " shot_result=" ++ r }

/-- The id a response to a shot submission carries (`ShotResponse.ID`), if any. -/
def responseId (resp : Response) : Option String :=
  match resp.body with
  | Body.json fields => fields.lookup "id"
  | _ => none

/-! ## Properties stated by the specification -/

/-- The leaderboard order: percentage descending, then attempts descending, then
contestant id ascending. -/
def rankedBefore (a b : LeaderboardEntry) : Prop :=
  a.SuccessPercentage > b.SuccessPercentage ∨
    (a.SuccessPercentage = b.SuccessPercentage ∧
      (a.TotalAttempts > b.TotalAttempts ∨
        (a.TotalAttempts = b.TotalAttempts ∧ a.ContestantID ≤ b.ContestantID)))

/-- The stored attempts of contestant `x`. -/
def attemptsOf (db : Database) (x : SqlValue) : List Row :=
  (db.rowsOf "penalty_shots").filter (fun r => r.get "contestant_id" == x)

/-- The stored goals of contestant `x`. -/
def goalsOf (db : Database) (x : SqlValue) : List Row :=
  (attemptsOf db x).filter (fun r => r.get "shot_result" == SqlValue.text "goal")

/-- The derived percentage as the specification words it:
`successful_shots / total_attempts * 100` when `total_attempts > 0`, else `0`. -/
def specSuccessPercentage (successfulShots totalAttempts : Int) : ℚ :=
  if totalAttempts > 0 then (successfulShots : ℚ) / (totalAttempts : ℚ) * 100 else 0

/-- The states the database of cmd/setup can be brought to by `INSERT` statements, on
connections with foreign keys on or off, and by requests to the server. -/
inductive SqlReachable : Database → Prop where
  | setup : SqlReachable setupDb
  | insert (conn : Connection) (db : Database) (tn : String) (supplied : Row) (now : String)
      (db2 : Database) :
      SqlReachable db → insert conn db tn supplied now = Except.ok db2 → SqlReachable db2
  | request (req : Request) (db : Database) :
      SqlReachable db → SqlReachable (serve req db).2

/-- The three tables of the schema exist. -/
def hasSchemaTables (db : Database) : Prop :=
  db.hasTable "contestants" = true ∧ db.hasTable "penalty_shots" = true ∧
    db.hasTable "leaderboard_cache" = true

/-- The row `penalty_shots` stores for a shot: the next id, the three supplied values, the
time of the insert, and no operator or session. -/
def shotStoredRow (t : Table) (c : Int) (r : String) (n : Int) (now : String) : Row :=
  [ ("id", SqlValue.integer (max t.seq (maxRowid "id" t.rows) + 1)),
    ("contestant_id", SqlValue.integer c),
    ("shot_result", SqlValue.text r),
    ("attempt_number", SqlValue.integer n),
    ("timestamp", SqlValue.text now),
    ("operator_id", SqlValue.null),
    ("session_id", SqlValue.null) ]

/-- Whether a contestant with id `c` is registered. -/
def contestantExists (db : Database) (c : Int) : Bool :=
  (db.rowsOf "contestants").any (fun row => row.get "id" == SqlValue.integer c)

/-- The `penalty_shots` table is the one of the schema and every stored result is `goal`
or `miss`. -/
def ShotsWellFormed (db : Database) : Prop :=
  ∃ t, db.findTable "penalty_shots" = some t ∧ t.schema = penaltyShotsSQL ∧
    ∀ r ∈ t.rows, r.get "shot_result" = SqlValue.text "goal" ∨
      r.get "shot_result" = SqlValue.text "miss"

/-- The `leaderboard_cache` table is the one of the schema, every row has an integer
`contestant_id`, and no two rows share it. -/
def CacheWellFormed (db : Database) : Prop :=
  ∃ t, db.findTable "leaderboard_cache" = some t ∧ t.schema = leaderboardCacheSQL ∧
    (∀ r ∈ t.rows, ∃ i, r.get "contestant_id" = SqlValue.integer i) ∧
    t.rows.Pairwise (fun a b => a.get "contestant_id" ≠ b.get "contestant_id")

/-- The columns supplied when an aggregate row is created for contestant `c`. -/
def seedRow (c : Int) : Row :=
  [("contestant_id", SqlValue.integer c)]

/-- The row `leaderboard_cache` stores for `seedRow c`: the defaults of the schema. -/
def seedStoredRow (c : Int) (now : String) : Row :=
  [ ("contestant_id", SqlValue.integer c),
    ("total_attempts", SqlValue.integer 0),
    ("successful_shots", SqlValue.integer 0),
    ("success_percentage", SqlValue.real 0),
    ("last_updated", SqlValue.text now) ]

/-- A database with contestant 1, one goal recorded for them, and their aggregate row
counting one attempt and one goal. -/
def scoredDb : Database :=
  insertResult sqlOpen
    (insertResult sqlOpen oneContestantDb "penalty_shots" (shotRow 1 "goal" 1) "t1")
    "leaderboard_cache"
    [ ("contestant_id", SqlValue.integer 1), ("total_attempts", SqlValue.integer 1),
      ("successful_shots", SqlValue.integer 1), ("success_percentage", SqlValue.real 100) ]
    "t1"

/-- The databases that accepted `INSERT` statements and requests to the server lead to
from `d`. -/
inductive LaterThan (d : Database) : Database → Prop where
  | refl : LaterThan d d
  | insert (conn : Connection) (db : Database) (tn : String) (supplied : Row) (now : String)
      (db2 : Database) :
      LaterThan d db → insert conn db tn supplied now = Except.ok db2 → LaterThan d db2
  | request (req : Request) (db : Database) :
      LaterThan d db → LaterThan d (serve req db).2

/-- Whether `penalty_shots` has an id left to give: the largest id it ever held is below
`2^63 - 1`. -/
def shotIdAvailable (db : Database) : Bool :=
  match db.findTable "penalty_shots" with
  | some t => decide (max t.seq (maxRowid "id" t.rows) < maxRowidValue)
  | none => false

/-! ## The attempt-recording engine, from the specification

The source registers `POST /api/penalty-shots` and `GET /api/leaderboard` with placeholder
bodies; the code that records an attempt and the code that ranks are not in it. The
definitions of this section and the next follow sections 3 and 4 of the specification,
over the tables of cmd/setup. -/

/-- Modelled from the spec: the failure modes of section 4.3 for the missing body of the
`POST /api/penalty-shots` handler. -/
inductive RecordError where
  | InvalidContestant
  | InvalidResult
  | InvalidAttemptNumber
  | StorageUnavailable
  | AggregateMissing
  deriving DecidableEq

/-- Modelled from the spec: the columns the missing attempt-recording code supplies for an
Attempt (section 3): contestant, result, attempt number and the two provenance tags; `id`
and the timestamp are assigned by the store. -/
def attemptRow (req : ShotRequest) : Row :=
  [ ("contestant_id", SqlValue.integer req.ContestantID),
    ("shot_result", SqlValue.text req.ShotResult),
    ("attempt_number", SqlValue.integer req.AttemptNumber),
    ("operator_id", SqlValue.text req.OperatorID),
    ("session_id", SqlValue.text req.SessionID) ]

/-- Modelled from the spec: the lookup of the missing Idempotency Guard (section 4.2): the
Attempt already stored with the same `(contestant_id, attempt_number)` pair. -/
def findAttempt (db : Database) (c n : Int) : Option Row :=
  (db.rowsOf "penalty_shots").find? (fun a =>
    a.get "contestant_id" == SqlValue.integer c &&
      a.get "attempt_number" == SqlValue.integer n)

/-- Modelled from the spec: whether the contestant has an Aggregate row, the test behind
`AggregateMissing` in the missing Consistency Engine (section 4.3). -/
def hasAggregate (db : Database) (c : Int) : Bool :=
  (db.rowsOf "leaderboard_cache").any (fun g => g.get "contestant_id" == SqlValue.integer c)

/-- Modelled from the spec: the adjustment of an Aggregate row by the missing Consistency
Engine (section 4.3): `total_attempts += 1`, `successful_shots += 1` iff the result is
`goal`, `success_percentage` recomputed, `last_updated` set. -/
def bumpAggregate (isGoal : Bool) (now : String) (agg : Row) : Row :=
  match agg.get "total_attempts", agg.get "successful_shots" with
  | SqlValue.integer t, SqlValue.integer g =>
    [ ("contestant_id", agg.get "contestant_id"),
      ("total_attempts", SqlValue.integer (t + 1)),
      ("successful_shots", SqlValue.integer (g + (if isGoal then 1 else 0))),
      ("success_percentage",
        SqlValue.real (specSuccessPercentage (g + (if isGoal then 1 else 0)) (t + 1))),
      ("last_updated", SqlValue.text now) ]
  | _, _ => agg

/-- Modelled from the spec: the write of the missing Consistency Engine to the Aggregate
Store, applying `f` to every row of table `tn` (an `UPDATE` without a `WHERE` clause; the
clause is in `f`). -/
def mapRows (db : Database) (tn : String) (f : Row → Row) : Database :=
  match db.findTable tn with
  | none => db
  | some t => { db with tables := replaceTable tn { t with rows := t.rows.map f } db.tables }

/-- Modelled from the spec: the second write of the missing Consistency Engine
(section 4.3), adjusting the Aggregate row of contestant `c`. -/
def updateAggregate (db : Database) (c : Int) (isGoal : Bool) (now : String) : Database :=
  mapRows db "leaderboard_cache" (fun g =>
    if g.get "contestant_id" == SqlValue.integer c then bumpAggregate isGoal now g else g)

/-- Modelled from the spec: `RecordAttempt`, the missing body of the
`POST /api/penalty-shots` handler (sections 4.1 to 4.3, run as one atomic unit).
It rejects an unknown contestant, a result other than `goal` and `miss`, and an attempt
number below 1; a submission whose `(contestant_id, attempt_number)` is already stored
returns the stored Attempt and writes nothing; otherwise, if the contestant has an
Aggregate row, it appends the Attempt and adjusts that row. On an error nothing is
persisted. -/
def recordAttempt (db : Database) (req : ShotRequest) (now : String) :
    Except RecordError (Row × Database) :=
  if !contestantExists db req.ContestantID then Except.error RecordError.InvalidContestant
  else if !(req.ShotResult == "goal" || req.ShotResult == "miss") then
    Except.error RecordError.InvalidResult
  else if req.AttemptNumber < 1 then Except.error RecordError.InvalidAttemptNumber
  else
    match findAttempt db req.ContestantID req.AttemptNumber with
    | some stored => Except.ok (stored, db)
    | none =>
      if !hasAggregate db req.ContestantID then Except.error RecordError.AggregateMissing
      else
        match insert sqlOpen db "penalty_shots" (attemptRow req) now with
        | Except.error _ => Except.error RecordError.StorageUnavailable
        | Except.ok db1 =>
          Except.ok (((db1.rowsOf "penalty_shots").getLast?).getD [],
            updateAggregate db1 req.ContestantID (req.ShotResult == "goal") now)

/-- Modelled from the spec: the database after a submission, as `recordAttempt` leaves
it: changed when a new Attempt was recorded, as before otherwise. -/
def afterRecord (db : Database) (req : ShotRequest) (now : String) : Database :=
  match recordAttempt db req now with
  | Except.ok out => out.2
  | Except.error _ => db

/-- Modelled from the spec: the registration of a contestant by the Contestant Directory,
which the source does not contain, with the Aggregate row pre-seeded at contestant
creation with zero counters (section 3, lifecycle); both rows are stored or neither. -/
def registerContestant (db : Database) (badge name : String) (now : String) : Database :=
  match insert sqlOpen db "contestants"
      [("badge_id", SqlValue.text badge), ("name", SqlValue.text name)] now with
  | Except.error _ => db
  | Except.ok db1 =>
    match (db1.rowsOf "contestants").getLast? with
    | none => db
    | some c =>
      match insert sqlOpen db1 "leaderboard_cache" [("contestant_id", c.get "id")] now with
      | Except.error _ => db
      | Except.ok db2 => db2

/-- Modelled from the spec: the states the missing engine brings the database of cmd/setup
to, by registrations, submissions, and requests to the routes the source does serve. -/
inductive EngineReachable : Database → Prop where
  | setup : EngineReachable setupDb
  | register (badge name now : String) (db : Database) :
      EngineReachable db → EngineReachable (registerContestant db badge name now)
  | record (req : ShotRequest) (now : String) (db : Database) :
      EngineReachable db → EngineReachable (afterRecord db req now)
  | request (req : Request) (db : Database) :
      EngineReachable db → EngineReachable (serve req db).2

/-- The three tables are the ones cmd/setup created. -/
def SchemaInPlace (db : Database) : Prop :=
  (∃ t, db.findTable "contestants" = some t ∧ t.schema = contestantsSQL) ∧
    (∃ t, db.findTable "penalty_shots" = some t ∧ t.schema = penaltyShotsSQL) ∧
    (∃ t, db.findTable "leaderboard_cache" = some t ∧ t.schema = leaderboardCacheSQL)

/-- Aggregate and log agree (section 3, the central invariant): every contestant has an
aggregate row, every aggregate row has `total_attempts` equal to the number of attempts
of its contestant and `successful_shots` equal to the number of those with result `goal`,
and every attempt belongs to a contestant. -/
def AggregateConsistent (db : Database) : Prop :=
  (∀ c ∈ db.rowsOf "contestants", ∃ g ∈ db.rowsOf "leaderboard_cache",
      g.get "contestant_id" = c.get "id") ∧
    (∀ g ∈ db.rowsOf "leaderboard_cache",
      g.get "total_attempts" =
          SqlValue.integer (attemptsOf db (g.get "contestant_id")).length ∧
        g.get "successful_shots" =
          SqlValue.integer (goalsOf db (g.get "contestant_id")).length) ∧
    (∀ a ∈ db.rowsOf "penalty_shots", ∃ c ∈ db.rowsOf "contestants",
      c.get "id" = a.get "contestant_id")

/-- A database of the engine after one registration and three submissions, the last a
retry of the first. -/
def playedDb : Database :=
  afterRecord
    (afterRecord
      (afterRecord (registerContestant setupDb "B-1" "Ada" "t0")
        (ShotRequest.mk 1 "goal" 1 "op" "s1") "t1")
      (ShotRequest.mk 1 "miss" 2 "op" "s1") "t2")
    (ShotRequest.mk 1 "goal" 1 "op" "s1") "t3"

/-! ## The ranking engine, from the specification -/

/-- Modelled from the spec: the filter of a leaderboard query as the closed variant `all`,
`today`, `top10` of sections 4.4 and 9; the source has only the open string
`LeaderboardRequest.Filter` and no code that reads it. -/
inductive LeaderboardFilter where
  | all
  | today
  | top10
  deriving DecidableEq

/-- An integer column read into a Go `int` (zero value for anything else). -/
def SqlValue.toInt : SqlValue → Int
  | SqlValue.integer i => i
  | _ => 0

/-- A `REAL` column read into a Go `float64` (zero value for anything but a number). -/
def SqlValue.toRat : SqlValue → ℚ
  | SqlValue.real q => q
  | SqlValue.integer i => (i : ℚ)
  | _ => 0

/-- A text column read into a Go `string` (zero value for anything else). -/
def SqlValue.toText : SqlValue → String
  | SqlValue.text s => s
  | _ => ""

/-- Modelled from the spec: a leaderboard entry, a contestant's Aggregate plus display
fields (glossary), read by the missing Ranking Engine from the columns named in the `db`
tags of `LeaderboardEntry`. -/
def entryOfAggregate (db : Database) (agg : Row) : LeaderboardEntry :=
  let who := ((db.rowsOf "contestants").find?
    (fun c => c.get "id" == agg.get "contestant_id")).getD []
  { ContestantID := (agg.get "contestant_id").toInt
    Name := (who.get "name").toText
    Company := (who.get "company").toText
    TotalAttempts := (agg.get "total_attempts").toInt
    SuccessfulShots := (agg.get "successful_shots").toInt
    SuccessPercentage := (agg.get "success_percentage").toRat
    LastUpdated := (agg.get "last_updated").toText }

/-- Modelled from the spec: the contestants the missing Ranking Engine ranks
(section 4.4): those with at least one attempt, and for `today` those whose `last_updated`
falls within the day `today` (written `YYYY-MM-DD`, supplied by the clock). -/
def eligibleEntries (db : Database) (filter : LeaderboardFilter) (today : String) :
    List LeaderboardEntry :=
  ((db.rowsOf "leaderboard_cache").map (entryOfAggregate db)).filter (fun e =>
    decide (1 ≤ e.TotalAttempts) &&
      (match filter with
        | LeaderboardFilter.today => e.LastUpdated.take 10 == today
        | _ => true))

/-- The leaderboard order is decidable. -/
instance rankedBeforeDecidable : DecidableRel rankedBefore :=
  fun a b => by unfold rankedBefore; exact inferInstance

/-- Modelled from the spec: the limit the missing Ranking Engine applies (section 4.4):
`top10` is `all` with limit 10. -/
def effectiveLimit (filter : LeaderboardFilter) (limit : Int) : Int :=
  match filter with
  | LeaderboardFilter.top10 => 10
  | _ => limit

/-- The name of a filter. -/
def LeaderboardFilter.name : LeaderboardFilter → String
  | LeaderboardFilter.all => "all"
  | LeaderboardFilter.today => "today"
  | LeaderboardFilter.top10 => "top10"

/-- Modelled from the spec: `GetLeaderboard`, the missing body of the
`GET /api/leaderboard` handler (section 4.4): the eligible contestants in leaderboard
order, cut to the limit (none for a limit of 0 or unset, taken here as any limit below 1),
with the count of eligible contestants before the cut. -/
def getLeaderboard (db : Database) (filter : LeaderboardFilter) (limit : Int)
    (today : String) : LeaderboardResponse :=
  { Entries :=
      if effectiveLimit filter limit ≤ 0 then
        (eligibleEntries db filter today).insertionSort rankedBefore
      else
        ((eligibleEntries db filter today).insertionSort rankedBefore).take
          (effectiveLimit filter limit).toNat
    Total := ((eligibleEntries db filter today).length : Int)
    Filter := filter.name }

/-! ## Checks on concrete inputs -/

example : (setupMain Database.empty).2 = none := by decide
example : setupDb.tables.length = 3 := by decide
example : (oneContestantDb.rowsOf "contestants").length = 1 := by decide
example : insertAccepted sqlOpen oneContestantDb "penalty_shots" (shotRow 1 "goal" 1) "t1"
    = true := by decide
example : insertAccepted sqlOpen oneContestantDb "penalty_shots" (shotRow 1 "own goal" 1) "t1"
    = false := by decide
example : insertAccepted sqlOpen oneContestantDb "penalty_shots" (shotRow 7 "goal" 0) "t1"
    = true := by decide
example : insertAccepted (Connection.mk true) oneContestantDb "penalty_shots"
    (shotRow 7 "goal" 0) "t1" = false := by decide
example : (serve (shotSubmission 1 1 "goal") setupDb).1.status = 200 := by decide
example : (serve (leaderboardQuery "all" 0) setupDb).1.body =
    Body.json [("message", "Leaderboard endpoint - to be implemented")] := by decide
example : (serve (Request.mk Method.DELETE "/api/penalty-shots" [] "") setupDb).1.status
    = 404 := by decide
example : (ShotRequest.mk 1 "goal" 1 "" "").valid = true := by decide
example : (ShotRequest.mk 1 "goal" 0 "" "").valid = false := by decide
example : (LeaderboardRequest.mk "bogus" 0).valid = true := by decide
example : ((insertResult sqlOpen
      (insertResult sqlOpen setupDb "leaderboard_cache"
        [("contestant_id", SqlValue.integer 9223372036854775807)] "t1")
      "leaderboard_cache" [("total_attempts", SqlValue.integer 7)] "t2").rowsOf
    "leaderboard_cache").map (fun g => g.get "contestant_id") =
    [SqlValue.integer 9223372036854775807, SqlValue.integer 1] := by decide
example : ((insertResult sqlOpen
      (insertResult sqlOpen setupDb "leaderboard_cache"
        [("contestant_id", SqlValue.integer (-5))] "t1")
      "leaderboard_cache" [("total_attempts", SqlValue.integer 7)] "t2").rowsOf
    "leaderboard_cache").map (fun g => g.get "contestant_id") =
    [SqlValue.integer (-5), SqlValue.integer (-4)] := by decide
example : insertAccepted sqlOpen
    (insertResult sqlOpen oneContestantDb "penalty_shots"
      (("id", SqlValue.integer 9223372036854775807) :: shotRow 1 "goal" 1) "t1")
    "penalty_shots" (shotRow 1 "goal" 2) "t2" = false := by decide
example : insert sqlOpen
    (insertResult sqlOpen oneContestantDb "penalty_shots"
      (("id", SqlValue.integer 9223372036854775807) :: shotRow 1 "goal" 1) "t1")
    "penalty_shots" (shotRow 1 "goal" 2) "t2" = Except.error SqlError.full := by rfl
example : (playedDb.rowsOf "penalty_shots").length = 2 := by decide
example : (playedDb.rowsOf "leaderboard_cache").map (fun g => g.get "total_attempts") =
    [SqlValue.integer 2] := by decide
example : (playedDb.rowsOf "leaderboard_cache").map (fun g => g.get "successful_shots") =
    [SqlValue.integer 1] := by decide
example : (getLeaderboard playedDb LeaderboardFilter.all 0 "t").Total = 1 := by decide
example : (attemptsOf scoredDb (SqlValue.integer 1)).length = 1 := by decide
example : (scoredDb.rowsOf "leaderboard_cache").length = 1 := by decide

/-! ## The server never writes -/

/-- Every registered handler hands the database back as it got it. -/
theorem handler_keeps_db (r : Route) (hr : r ∈ routes) (req : Request) (db : Database) :
    (r.handler req db).2 = db := by
  simp only [routes, List.mem_cons, List.mem_singleton, List.not_mem_nil, or_false] at hr
  rcases hr with h | h | h | h | h | h | h | h | h | h <;> subst h <;> rfl

/-- Serving a request leaves the database unchanged. -/
theorem serve_keeps_db (req : Request) (db : Database) : (serve req db).2 = db := by
  unfold serve
  split
  · rfl
  · split
    · rename_i r hfind
      exact handler_keeps_db r (List.mem_of_find?_eq_some hfind) req db
    · rfl

/-- Serving any sequence of requests leaves the database unchanged. -/
theorem serveAll_keeps_db (reqs : List Request) (db : Database) : serveAll reqs db = db := by
  induction reqs generalizing db with
  | nil => rfl
  | cons req rest ih => simp only [serveAll, serve_keeps_db, ih]

/-- The answer to a shot submission, whatever the database and the shot. -/
theorem serve_shotSubmission (db : Database) (c n : Int) (r : String) :
    serve (shotSubmission c n r) db =
      ({ status := 200, headers := corsHeaders,
         body := Body.json [("message", "Penalty shots endpoint - to be implemented")] },
       db) := by
  rfl

/-- The answer to a leaderboard query, whatever the database, filter and limit. -/
theorem serve_leaderboardQuery (db : Database) (filter : String) (limit : Int) :
    serve (leaderboardQuery filter limit) db =
      ({ status := 200, headers := corsHeaders,
         body := Body.json [("message", "Leaderboard endpoint - to be implemented")] },
       db) := by
  rfl

/-! ## Statements of cmd/setup: what a successful run leaves -/

/-- A statement that succeeds keeps the rows of every table. -/
theorem exec_rowsOf (s : Stmt) (db db2 : Database) (n : String)
    (h : exec s db = Except.ok db2) : db2.rowsOf n = db.rowsOf n := by
  cases s with
  | pragmaJournalMode mode =>
    simp only [exec, Except.ok.injEq] at h
    subst h; rfl
  | createTableIfNotExists t =>
    simp only [exec] at h
    split at h
    · simp only [Except.ok.injEq] at h; subst h; rfl
    · split at h
      · cases h
      · rename_i hno _
        simp only [Except.ok.injEq] at h
        subst h
        simp only [Database.rowsOf, Database.findTable, List.find?_append]
        cases hf : db.tables.find? (fun t => t.schema.name == n) with
        | some x => simp
        | none =>
          simp only [Option.none_or, List.find?_cons, List.find?_nil]
          cases (t.name == n) <;> rfl
  | createIndexIfNotExists i =>
    simp only [exec] at h
    split at h
    · simp only [Except.ok.injEq] at h; subst h; rfl
    · split at h
      · cases h
      · split at h
        · cases h
        · split at h
          · simp only [Except.ok.injEq] at h; subst h; rfl
          · cases h

/-- After `CREATE TABLE IF NOT EXISTS` succeeds the table exists, tables that existed
still do, and the indexes are as before. -/
theorem exec_createTable_ok (t : TableSchema) (db db2 : Database)
    (h : exec (Stmt.createTableIfNotExists t) db = Except.ok db2) :
    db2.hasTable t.name = true ∧ (∀ n, db.hasTable n = true → db2.hasTable n = true) ∧
      db2.indexes = db.indexes := by
  simp only [exec] at h
  split at h
  · rename_i hhas
    simp only [Except.ok.injEq] at h; subst h
    exact ⟨hhas, fun _ hn => hn, rfl⟩
  · split at h
    · cases h
    · simp only [Except.ok.injEq] at h; subst h
      refine ⟨?_, ?_, rfl⟩
      · simp [Database.hasTable]
      · intro n hn
        simp only [Database.hasTable, List.any_append, Bool.or_eq_true] at hn ⊢
        exact Or.inl hn

/-- After `CREATE INDEX IF NOT EXISTS` succeeds the index exists, indexes that existed
still do, and the tables are as before. -/
theorem exec_createIndex_ok (i : Index) (db db2 : Database)
    (h : exec (Stmt.createIndexIfNotExists i) db = Except.ok db2) :
    db2.hasIndex i.name = true ∧ (∀ n, db.hasIndex n = true → db2.hasIndex n = true) ∧
      db2.tables = db.tables := by
  simp only [exec] at h
  split at h
  · rename_i hhas
    simp only [Except.ok.injEq] at h; subst h
    exact ⟨hhas, fun _ hn => hn, rfl⟩
  · split at h
    · cases h
    · split at h
      · cases h
      · split at h
        · simp only [Except.ok.injEq] at h; subst h
          refine ⟨?_, ?_, rfl⟩
          · simp [Database.hasIndex]
          · intro n hn
            simp only [Database.hasIndex, List.any_append, Bool.or_eq_true] at hn ⊢
            exact Or.inl hn
        · cases h

/-- On a database that has the table, `CREATE TABLE IF NOT EXISTS` does nothing. -/
theorem exec_createTable_of_has (t : TableSchema) (db : Database)
    (h : db.hasTable t.name = true) :
    exec (Stmt.createTableIfNotExists t) db = Except.ok db := by
  simp only [exec, h, if_true]

/-- On a database that has the index, `CREATE INDEX IF NOT EXISTS` does nothing. -/
theorem exec_createIndex_of_has (i : Index) (db : Database)
    (h : db.hasIndex i.name = true) :
    exec (Stmt.createIndexIfNotExists i) db = Except.ok db := by
  simp only [exec, h, if_true]

/-- What a successful `createTables` leaves: the three tables. -/
theorem createTables_ok (db d1 : Database) (h : createTables db = (d1, none)) :
    hasSchemaTables d1 ∧ (∀ n, db.hasIndex n = true → d1.hasIndex n = true) := by
  unfold createTables at h
  split at h
  · cases h
  · rename_i a ha
    split at h
    · cases h
    · rename_i b hb
      split at h
      · cases h
      · rename_i c hc
        simp only [Prod.mk.injEq, and_true] at h
        subst h
        obtain ⟨a1, _, a3⟩ := exec_createTable_ok _ _ _ ha
        obtain ⟨b1, b2, b3⟩ := exec_createTable_ok _ _ _ hb
        obtain ⟨c1, c2, c3⟩ := exec_createTable_ok _ _ _ hc
        refine ⟨⟨c2 _ (b2 _ a1), c2 _ b1, c1⟩, ?_⟩
        intro n hn
        simp only [Database.hasIndex, c3, b3, a3] at hn ⊢
        exact hn

/-- On a database that has the three tables, `createTables` changes nothing. -/
theorem createTables_of_has (db : Database) (h : hasSchemaTables db) :
    createTables db = (db, none) := by
  obtain ⟨h1, h2, h3⟩ := h
  unfold createTables
  rw [exec_createTable_of_has contestantsSQL db h1]
  simp only
  rw [exec_createTable_of_has penaltyShotsSQL db h2]
  simp only
  rw [exec_createTable_of_has leaderboardCacheSQL db h3]

/-- What a successful run of the index loop leaves. -/
theorem createIndexesLoop_ok (is : List Index) (db d : Database)
    (h : createIndexesLoop is db = (d, none)) :
    (∀ i ∈ is, d.hasIndex i.name = true) ∧ (∀ n, db.hasIndex n = true → d.hasIndex n = true) ∧
      d.tables = db.tables := by
  induction is generalizing db with
  | nil =>
    simp only [createIndexesLoop, Prod.mk.injEq, and_true] at h
    subst h
    exact ⟨fun _ hi => (by cases hi), fun _ hn => hn, rfl⟩
  | cons i rest ih =>
    simp only [createIndexesLoop] at h
    split at h
    · cases h
    · rename_i a ha
      obtain ⟨a1, a2, a3⟩ := exec_createIndex_ok _ _ _ ha
      obtain ⟨r1, r2, r3⟩ := ih a h
      refine ⟨?_, fun n hn => r2 n (a2 n hn), r3.trans a3⟩
      intro j hj
      rcases List.mem_cons.mp hj with rfl | hj
      · exact r2 _ a1
      · exact r1 j hj

/-- On a database that has the indexes, the index loop changes nothing. -/
theorem createIndexesLoop_of_has (is : List Index) (db : Database)
    (h : ∀ i ∈ is, db.hasIndex i.name = true) : createIndexesLoop is db = (db, none) := by
  induction is with
  | nil => rfl
  | cons i rest ih =>
    simp only [createIndexesLoop]
    rw [exec_createIndex_of_has i db (h i (List.mem_cons_self _ _))]
    exact ih (fun j hj => h j (List.mem_cons_of_mem _ hj))

/-- Whatever happens, `createTables` keeps the rows of every table. -/
theorem createTables_rowsOf (db : Database) (n : String) :
    (createTables db).1.rowsOf n = db.rowsOf n := by
  unfold createTables
  split
  · rfl
  · rename_i a ha
    split
    · exact exec_rowsOf _ _ _ n ha
    · rename_i b hb
      split
      · exact (exec_rowsOf _ _ _ n hb).trans (exec_rowsOf _ _ _ n ha)
      · rename_i c hc
        exact (exec_rowsOf _ _ _ n hc).trans
          ((exec_rowsOf _ _ _ n hb).trans (exec_rowsOf _ _ _ n ha))

/-- Whatever happens, the index loop keeps the rows of every table. -/
theorem createIndexesLoop_rowsOf (is : List Index) (db : Database) (n : String) :
    (createIndexesLoop is db).1.rowsOf n = db.rowsOf n := by
  induction is generalizing db with
  | nil => rfl
  | cons i rest ih =>
    simp only [createIndexesLoop]
    split
    · rfl
    · rename_i a ha
      exact (ih a).trans (exec_rowsOf _ _ _ n ha)

/-- Whatever happens, a run of cmd/setup keeps the rows of every table. -/
theorem setupMain_rowsOf (db : Database) (n : String) :
    (setupMain db).1.rowsOf n = db.rowsOf n := by
  have hp : ∀ d, exec (Stmt.pragmaJournalMode "wal") db = Except.ok d →
      d.rowsOf n = db.rowsOf n := fun d hd => exec_rowsOf _ _ _ n hd
  unfold setupMain
  split
  · rfl
  · rename_i a ha
    have h1 := createTables_rowsOf a n
    split
    · rename_i d2 e he
      rw [he] at h1
      exact h1.trans (hp a ha)
    · rename_i d2 he
      rw [he] at h1
      have h2 := createIndexesLoop_rowsOf indexes d2 n
      unfold createIndexes
      split
      · rename_i d3 e h3
        rw [h3] at h2
        exact h2.trans (h1.trans (hp a ha))
      · rename_i d3 h3
        rw [h3] at h2
        exact h2.trans (h1.trans (hp a ha))

/-! ## What an accepted INSERT has checked -/

/-- An accepted `INSERT` found its table, built a row that passed every check, and stored
it in that table. -/
theorem insert_ok (conn : Connection) (db : Database) (tn : String) (supplied : Row)
    (now : String) (db2 : Database) (h : insert conn db tn supplied now = Except.ok db2) :
    ∃ t row, db.findTable tn = some t ∧
      buildRow t now supplied t.schema.columns = Except.ok row ∧
      t.schema.columns.all (notNullOk row) = true ∧
      t.schema.columns.all (checkOk row) = true ∧
      t.schema.columns.all (uniqueOk t.rows row) = true ∧
      (conn.foreignKeys = true → t.schema.foreignKeys.all (foreignKeyOk db row) = true) ∧
      db2 = { db with tables := replaceTable tn (t.push row) db.tables } := by
  unfold insert at h
  cases hft : db.findTable tn with
  | none => rw [hft] at h; cases h
  | some t =>
    rw [hft] at h
    simp only at h
    split at h
    · cases h
    · cases hrow : buildRow t now supplied t.schema.columns with
      | error e => rw [hrow] at h; cases h
      | ok row =>
        rw [hrow] at h
        simp only at h
        split at h
        · cases h
        · rename_i hnn
          split at h
          · cases h
          · rename_i hck
            split at h
            · cases h
            · rename_i huq
              split at h
              · cases h
              · rename_i hfk
                simp only [Except.ok.injEq] at h
                refine ⟨t, row, rfl, hrow, ?_, ?_, ?_, ?_, h.symm⟩
                · simpa using hnn
                · simpa using hck
                · simpa using huq
                · intro hc
                  cases hall : t.schema.foreignKeys.all (foreignKeyOk db row) with
                  | true => rfl
                  | false => rw [hc, hall] at hfk; exact absurd rfl hfk

/-- Replacing the table named `tn` leaves the table found under another name. -/
theorem find_replaceTable_other (tn n : String) (t2 : Table) (ts : List Table)
    (hne : n ≠ tn) (h2 : t2.schema.name = tn) :
    (replaceTable tn t2 ts).find? (fun t => t.schema.name == n) =
      ts.find? (fun t => t.schema.name == n) := by
  induction ts with
  | nil => rfl
  | cons t rest ih =>
    simp only [replaceTable]
    by_cases ht : t.schema.name = tn
    · have h2n : (t2.schema.name == n) = false := by
        simp only [beq_eq_false_iff_ne, ne_eq, h2]; exact fun e => hne e.symm
      have htn : (t.schema.name == n) = false := by
        simp only [beq_eq_false_iff_ne, ne_eq, ht]; exact fun e => hne e.symm
      have hb : (t.schema.name == tn) = true := by simp only [ht, beq_self_eq_true]
      simp only [hb, if_true, List.find?_cons, h2n, htn]
    · have hf : (t.schema.name == tn) = false := by
        simp only [beq_eq_false_iff_ne, ne_eq]; exact ht
      simp only [hf, Bool.false_eq_true, if_false, List.find?_cons, ih]

/-- Replacing the table named `tn` puts the new table under that name. -/
theorem find_replaceTable_same (tn : String) (t t2 : Table) (ts : List Table)
    (hfind : ts.find? (fun t => t.schema.name == tn) = some t) (h2 : t2.schema.name = tn) :
    (replaceTable tn t2 ts).find? (fun t => t.schema.name == tn) = some t2 := by
  induction ts with
  | nil => cases hfind
  | cons a rest ih =>
    simp only [replaceTable]
    by_cases ha : a.schema.name = tn
    · have hb : (a.schema.name == tn) = true := by simp only [ha, beq_self_eq_true]
      have h2b : (t2.schema.name == tn) = true := by simp only [h2, beq_self_eq_true]
      simp only [hb, if_true, List.find?_cons, h2b]
    · have hf : (a.schema.name == tn) = false := by
        simp only [beq_eq_false_iff_ne, ne_eq]; exact ha
      simp only [List.find?_cons, hf] at hfind
      simp only [hf, Bool.false_eq_true, if_false, List.find?_cons, ih hfind]

/-- The table a search by name finds carries that name. -/
theorem findTable_name (db : Database) (n : String) (t : Table)
    (h : db.findTable n = some t) : t.schema.name = n := by
  have := List.find?_some h
  simpa using this

/-- An accepted `INSERT` into `tn` leaves every other table as it is. -/
theorem insert_findTable_other (conn : Connection) (db : Database) (tn : String)
    (supplied : Row) (now : String) (db2 : Database) (n : String)
    (h : insert conn db tn supplied now = Except.ok db2) (hne : n ≠ tn) :
    db2.findTable n = db.findTable n := by
  obtain ⟨t, row, ht, _, _, _, _, _, hdb⟩ := insert_ok conn db tn supplied now db2 h
  subst hdb
  exact find_replaceTable_other tn n (t.push row) db.tables hne (findTable_name db tn t ht)

/-- An accepted `INSERT` into `tn` appends one checked row to that table. -/
theorem insert_findTable_same (conn : Connection) (db : Database) (tn : String)
    (supplied : Row) (now : String) (db2 : Database)
    (h : insert conn db tn supplied now = Except.ok db2) :
    ∃ t row, db.findTable tn = some t ∧ db2.findTable tn = some (t.push row) ∧
      buildRow t now supplied t.schema.columns = Except.ok row ∧
      t.schema.columns.all (notNullOk row) = true ∧
      t.schema.columns.all (checkOk row) = true ∧
      t.schema.columns.all (uniqueOk t.rows row) = true ∧
      (conn.foreignKeys = true → t.schema.foreignKeys.all (foreignKeyOk db row) = true) := by
  obtain ⟨t, row, ht, hb, h1, h2, h3, h4, hdb⟩ := insert_ok conn db tn supplied now db2 h
  subst hdb
  exact ⟨t, row, ht,
    find_replaceTable_same tn t (t.push row) db.tables ht (findTable_name db tn t ht),
    hb, h1, h2, h3, h4⟩

/-- Replacing a table by one of the same name keeps the names of the catalog. -/
theorem any_replaceTable (tn n : String) (t2 : Table) (ts : List Table)
    (h2 : t2.schema.name = tn) :
    (replaceTable tn t2 ts).any (fun t => t.schema.name == n) =
      ts.any (fun t => t.schema.name == n) := by
  induction ts with
  | nil => rfl
  | cons a rest ih =>
    simp only [replaceTable]
    by_cases ha : a.schema.name = tn
    · have hb : (a.schema.name == tn) = true := by simp only [ha, beq_self_eq_true]
      rw [if_pos hb]
      simp only [List.any_cons, h2, ha]
    · have hf : (a.schema.name == tn) = false := by
        simp only [beq_eq_false_iff_ne, ne_eq]; exact ha
      simp only [hf, Bool.false_eq_true, if_false, List.any_cons, ih]

/-- An accepted `INSERT` keeps the names of the tables and the indexes. -/
theorem insert_catalog (conn : Connection) (db : Database) (tn : String) (supplied : Row)
    (now : String) (db2 : Database) (h : insert conn db tn supplied now = Except.ok db2) :
    (∀ n, db2.hasTable n = db.hasTable n) ∧ db2.indexes = db.indexes := by
  obtain ⟨t, row, ht, _, _, _, _, _, hdb⟩ := insert_ok conn db tn supplied now db2 h
  subst hdb
  refine ⟨fun n => ?_, rfl⟩
  exact any_replaceTable tn n (t.push row) db.tables (findTable_name db tn t ht)

/-- Later states keep the names of the tables and the indexes. -/
theorem laterThan_catalog (d d3 : Database) (h : LaterThan d d3) :
    (∀ n, d3.hasTable n = d.hasTable n) ∧ d3.indexes = d.indexes := by
  induction h with
  | refl => exact ⟨fun _ => rfl, rfl⟩
  | insert conn db tn supplied now db2 _ hins ih =>
    obtain ⟨h1, h2⟩ := insert_catalog conn db tn supplied now db2 hins
    exact ⟨fun n => (h1 n).trans (ih.1 n), h2.trans ih.2⟩
  | request req db _ ih => rw [serve_keeps_db]; exact ih

/-! ## INSERT into `penalty_shots` -/

/-- The running maximum of `maxRowid` only grows. -/
theorem maxRowid_foldl_ge (pk : String) (rows : List Row) (m : Int) :
    m ≤ rows.foldl (fun m r => match r.get pk with
      | SqlValue.integer i => max m i
      | _ => m) m := by
  induction rows generalizing m with
  | nil => exact le_refl m
  | cons r rest ih =>
    simp only [List.foldl_cons]
    cases hr : r.get pk with
    | integer i => exact le_trans (le_max_left m i) (ih _)
    | null => exact ih _
    | real q => exact ih _
    | text s => exact ih _

/-- Every stored integer key is at most the running maximum. -/
theorem maxRowid_foldl_mem (pk : String) (rows : List Row) (m : Int) (r : Row) (i : Int)
    (hr : r ∈ rows) (hi : r.get pk = SqlValue.integer i) :
    i ≤ rows.foldl (fun m r => match r.get pk with
      | SqlValue.integer i => max m i
      | _ => m) m := by
  induction rows generalizing m with
  | nil => cases hr
  | cons a rest ih =>
    simp only [List.foldl_cons]
    rcases List.mem_cons.mp hr with rfl | hmem
    · rw [hi]
      exact le_trans (le_max_right m i) (maxRowid_foldl_ge pk rest _)
    · exact ih _ hmem

/-- Every stored integer key is at most `maxRowid`. -/
theorem le_maxRowid (pk : String) (rows : List Row) (r : Row) (i : Int)
    (hr : r ∈ rows) (hi : r.get pk = SqlValue.integer i) : i ≤ maxRowid pk rows :=
  maxRowid_foldl_mem pk rows 0 r i hr hi

/-- A key above `maxRowid` is not stored. -/
theorem fresh_rowid (pk : String) (rows : List Row) (k : Int) (hk : maxRowid pk rows < k) :
    rows.all (fun r => r.get pk != SqlValue.integer k) = true := by
  rw [List.all_eq_true]
  intro r hr
  simp only [bne_iff_ne, ne_eq]
  intro hget
  have := le_maxRowid pk rows r k hr hget
  omega

/-- The row built for a shot, as long as the table has an id left to give. -/
theorem buildRow_shot (t : Table) (c : Int) (r : String) (n : Int) (now : String) :
    buildRow t now (shotRow c r n) penaltyShotsSQL.columns =
      if max t.seq (maxRowid "id" t.rows) < maxRowidValue then
        Except.ok (shotStoredRow t c r n now)
      else Except.error SqlError.full := by
  have hfill : fillColumn t now (shotRow c r n)
      { plainColumn "id" ColType.INTEGER with primaryKey := true, autoincrement := true } =
      if max t.seq (maxRowid "id" t.rows) < maxRowidValue then
        Except.ok (SqlValue.integer (max t.seq (maxRowid "id" t.rows) + 1))
      else Except.error SqlError.full := by
    by_cases h : max t.seq (maxRowid "id" t.rows) < maxRowidValue
    · simp only [fillColumn, nextRowid, plainColumn, shotRow, List.lookup, Column.isRowid,
        h, if_true]
      rfl
    · simp only [fillColumn, nextRowid, plainColumn, shotRow, List.lookup, Column.isRowid,
        h, if_false]
      rfl
  have hrest : buildRow t now (shotRow c r n) penaltyShotsSQL.columns.tail =
      Except.ok (shotStoredRow t c r n now).tail := rfl
  have hcols : penaltyShotsSQL.columns =
      { plainColumn "id" ColType.INTEGER with primaryKey := true, autoincrement := true } ::
        penaltyShotsSQL.columns.tail := rfl
  rw [hcols, buildRow, hfill, hrest]
  by_cases h : max t.seq (maxRowid "id" t.rows) < maxRowidValue
  · simp only [h, if_true]; rfl
  · simp only [h, if_false]

/-- The columns a shot supplies are columns of the table. -/
theorem shotRow_columns (c : Int) (r : String) (n : Int) :
    (shotRow c r n).all (fun p => penaltyShotsSQL.columns.any (fun col => col.name == p.1))
      = true := by
  rfl

/-- A shot row passes `NOT NULL` on every column. -/
theorem notNull_shot (t : Table) (c : Int) (r : String) (n : Int) (now : String) :
    penaltyShotsSQL.columns.all (notNullOk (shotStoredRow t c r n now)) = true := by
  rfl

/-- A shot row passes the `CHECK` exactly when its result is `goal` or `miss`. -/
theorem check_shot (t : Table) (c : Int) (r : String) (n : Int) (now : String) :
    penaltyShotsSQL.columns.all (checkOk (shotStoredRow t c r n now)) = true ↔
      (r = "goal" ∨ r = "miss") := by
  have h : penaltyShotsSQL.columns.all (checkOk (shotStoredRow t c r n now)) =
      ["goal", "miss"].contains r := by
    simp [penaltyShotsSQL, plainColumn, checkOk, shotStoredRow, Row.get, List.lookup]
  rw [h]
  simp

/-- A shot row passes the key check: its id is new. -/
theorem unique_shot (t : Table) (c : Int) (r : String) (n : Int) (now : String) :
    penaltyShotsSQL.columns.all (uniqueOk t.rows (shotStoredRow t c r n now)) = true := by
  have hfresh := fresh_rowid "id" t.rows (max t.seq (maxRowid "id" t.rows) + 1)
    (by have := le_max_right t.seq (maxRowid "id" t.rows); omega)
  have hget : (shotStoredRow t c r n now).get "id" =
      SqlValue.integer (max t.seq (maxRowid "id" t.rows) + 1) := rfl
  simp only [penaltyShotsSQL, plainColumn, List.all_cons, List.all_nil, uniqueOk, hget,
    hfresh, Bool.or_true, Bool.and_true, Bool.or_self, Bool.not_false, Bool.true_or,
    Bool.and_self]

/-- The foreign key check of a shot row looks for the contestant. -/
theorem foreignKey_shot (db : Database) (t : Table) (c : Int) (r : String) (n : Int)
    (now : String) :
    penaltyShotsSQL.foreignKeys.all (foreignKeyOk db (shotStoredRow t c r n now)) =
      contestantExists db c := by
  have hget : (shotStoredRow t c r n now).get "contestant_id" = SqlValue.integer c := rfl
  simp only [penaltyShotsSQL, List.all_cons, List.all_nil, Bool.and_true, foreignKeyOk, hget,
    contestantExists]
  rfl

/-- What an `INSERT` of a shot does on a database whose `penalty_shots` table is the one
of the schema: refused when no id is left, refused for a result other than `goal` and
`miss`, refused on a connection that enforces foreign keys when the contestant is missing,
and accepted otherwise, storing `shotStoredRow`. The attempt number plays no part. -/
theorem insert_shot_eq (conn : Connection) (db : Database) (t : Table) (c : Int) (r : String)
    (n : Int) (now : String) (ht : db.findTable "penalty_shots" = some t)
    (hs : t.schema = penaltyShotsSQL) :
    insert conn db "penalty_shots" (shotRow c r n) now =
      if ¬ (max t.seq (maxRowid "id" t.rows) < maxRowidValue) then
        Except.error SqlError.full
      else if ¬ (r = "goal" ∨ r = "miss") then Except.error SqlError.checkFailed
      else if conn.foreignKeys = true ∧ contestantExists db c = false then
        Except.error SqlError.foreignKeyFailed
      else Except.ok
        { db with
          tables :=
            replaceTable "penalty_shots" (t.push (shotStoredRow t c r n now)) db.tables } := by
  unfold insert
  rw [ht]
  simp only [hs, shotRow_columns, Bool.not_true, Bool.false_eq_true, if_false, buildRow_shot]
  by_cases hid : max t.seq (maxRowid "id" t.rows) < maxRowidValue
  · simp only [hid, if_true, not_true_eq_false, if_false, notNull_shot, unique_shot,
      foreignKey_shot, Bool.not_true, Bool.false_eq_true]
    by_cases hr : (r = "goal" ∨ r = "miss")
    · have hc := (check_shot t c r n now).mpr hr
      rw [hc]
      simp only [Bool.not_true, Bool.false_eq_true, if_false, hr, not_true_eq_false]
      cases hfk : conn.foreignKeys <;> cases hex : contestantExists db c <;> simp
    · have hc : penaltyShotsSQL.columns.all (checkOk (shotStoredRow t c r n now)) = false := by
        cases h : penaltyShotsSQL.columns.all (checkOk (shotStoredRow t c r n now)) with
        | false => rfl
        | true => exact absurd ((check_shot t c r n now).mp h) hr
      rw [hc]
      simp only [Bool.not_false, if_true, hr, not_false_eq_true]
  · simp only [hid, if_false, not_false_eq_true, if_true]

/-- When the table accepts a shot. -/
theorem insert_shot_accepted_iff (conn : Connection) (db : Database) (t : Table) (c : Int)
    (r : String) (n : Int) (now : String) (ht : db.findTable "penalty_shots" = some t)
    (hs : t.schema = penaltyShotsSQL) :
    insertAccepted conn db "penalty_shots" (shotRow c r n) now = true ↔
      (max t.seq (maxRowid "id" t.rows) < maxRowidValue ∧ (r = "goal" ∨ r = "miss") ∧
        (conn.foreignKeys = true → contestantExists db c = true)) := by
  unfold insertAccepted
  rw [insert_shot_eq conn db t c r n now ht hs]
  by_cases hid : max t.seq (maxRowid "id" t.rows) < maxRowidValue
  · by_cases hr : (r = "goal" ∨ r = "miss")
    · cases hfk : conn.foreignKeys <;> cases hex : contestantExists db c <;> simp [hr, hid]
    · simp [hr, hid]
  · simp [hid]

/-! ## Invariants of the three tables -/

/-- A row that passed the checks of `penalty_shots` has result `goal` or `miss`. -/
theorem shot_result_of_checks (row : Row)
    (h1 : penaltyShotsSQL.columns.all (notNullOk row) = true)
    (h2 : penaltyShotsSQL.columns.all (checkOk row) = true) :
    row.get "shot_result" = SqlValue.text "goal" ∨
      row.get "shot_result" = SqlValue.text "miss" := by
  simp only [penaltyShotsSQL, plainColumn, List.all_cons, List.all_nil, notNullOk, checkOk,
    Bool.not_false, Bool.not_true, Bool.true_or, Bool.false_or, Bool.and_true,
    Bool.true_and, Bool.and_eq_true, bne_iff_ne, ne_eq] at h1 h2
  obtain ⟨_, hnn, _⟩ := h1
  cases hv : row.get "shot_result" with
  | null => exact absurd hv hnn
  | integer i => rw [hv] at h2; simp at h2
  | real q => rw [hv] at h2; simp at h2
  | text s =>
    rw [hv] at h2
    simp only [List.contains_cons, List.contains_nil, Bool.or_false, Bool.or_eq_true,
      beq_iff_eq] at h2
    rcases h2 with h | h
    · left; rw [h]
    · right; rw [h]

/-- A rowid column is filled with an integer. -/
theorem fillColumn_rowid (t : Table) (now : String) (supplied : Row) (c : Column)
    (v : SqlValue) (hc : c.isRowid = true) (h : fillColumn t now supplied c = Except.ok v) :
    ∃ i, v = SqlValue.integer i := by
  unfold fillColumn at h
  simp only [hc, if_true] at h
  split at h
  · split at h
    · exact ⟨_, (Except.ok.inj h).symm⟩
    · cases h
  · exact ⟨_, (Except.ok.inj h).symm⟩
  · cases h

/-- A row built for `leaderboard_cache` has an integer `contestant_id`. -/
theorem cache_key_of_build (t : Table) (now : String) (supplied : Row) (row : Row)
    (hb : buildRow t now supplied leaderboardCacheSQL.columns = Except.ok row) :
    ∃ i, row.get "contestant_id" = SqlValue.integer i := by
  have hcols : leaderboardCacheSQL.columns =
      { plainColumn "contestant_id" ColType.INTEGER with primaryKey := true } ::
        leaderboardCacheSQL.columns.tail := rfl
  rw [hcols, buildRow] at hb
  split at hb
  · cases hb
  · rename_i v hv
    obtain ⟨i, hi⟩ := fillColumn_rowid t now supplied
      { plainColumn "contestant_id" ColType.INTEGER with primaryKey := true } v rfl hv
    split at hb
    · cases hb
    · refine ⟨i, ?_⟩
      rw [← Except.ok.inj hb, hi]
      rfl

/-- A row that passed the key check of `leaderboard_cache` has a `contestant_id` no stored
row has. -/
theorem cache_key_fresh (rows : List Row) (row : Row) (i : Int)
    (hi : row.get "contestant_id" = SqlValue.integer i)
    (hu : leaderboardCacheSQL.columns.all (uniqueOk rows row) = true) :
    ∀ r ∈ rows, r.get "contestant_id" ≠ row.get "contestant_id" := by
  simp only [leaderboardCacheSQL, plainColumn, List.all_cons, List.all_nil, uniqueOk, hi,
    Bool.and_eq_true, Bool.or_eq_true] at hu
  obtain ⟨h, _⟩ := hu
  rcases h with h | h
  · rcases h with h | h
    · simp at h
    · simp at h
  · rw [List.all_eq_true] at h
    intro r hr
    have := h r hr
    simpa [hi] using this

/-- The database of cmd/setup has the tables of the schema, empty. -/
theorem setupDb_wellFormed : ShotsWellFormed setupDb ∧ CacheWellFormed setupDb := by
  refine ⟨⟨⟨penaltyShotsSQL, [], 0⟩, by decide, rfl, ?_⟩,
    ⟨⟨leaderboardCacheSQL, [], 0⟩, by decide, rfl, ?_, List.Pairwise.nil⟩⟩
  · intro r hr; cases hr
  · intro r hr; cases hr

/-- Every reachable state keeps both tables well formed. -/
theorem sqlReachable_wellFormed (db : Database) (h : SqlReachable db) :
    ShotsWellFormed db ∧ CacheWellFormed db := by
  induction h with
  | setup => exact setupDb_wellFormed
  | request req db _ ih => rw [serve_keeps_db]; exact ih
  | insert conn db tn supplied now db2 _ hins ih =>
    obtain ⟨⟨tp, htp, hsp, hrp⟩, ⟨tl, htl, hsl, hil, hpl⟩⟩ := ih
    obtain ⟨t, row, hfind, hfind2, hb, hnn, hck, huq, _⟩ :=
      insert_findTable_same conn db tn supplied now db2 hins
    constructor
    · by_cases hn : "penalty_shots" = tn
      · subst hn
        rw [htp] at hfind
        cases hfind
        refine ⟨tp.push row, hfind2, hsp, ?_⟩
        intro r hr
        simp only [Table.push, List.mem_append, List.mem_singleton] at hr
        rcases hr with hr | rfl
        · exact hrp r hr
        · rw [hsp] at hnn hck
          exact shot_result_of_checks _ hnn hck
      · refine ⟨tp, ?_, hsp, hrp⟩
        rw [insert_findTable_other conn db tn supplied now db2 _ hins hn, htp]
    · by_cases hn : "leaderboard_cache" = tn
      · subst hn
        rw [htl] at hfind
        cases hfind
        rw [hsl] at hb huq
        obtain ⟨i, hi⟩ := cache_key_of_build tl now supplied row hb
        refine ⟨tl.push row, hfind2, hsl, ?_, ?_⟩
        · intro r hr
          simp only [Table.push, List.mem_append, List.mem_singleton] at hr
          rcases hr with hr | rfl
          · exact hil r hr
          · exact ⟨i, hi⟩
        · simp only [Table.push]
          rw [List.pairwise_append]
          refine ⟨hpl, List.pairwise_singleton _ _, ?_⟩
          intro a ha b hb2
          rw [List.mem_singleton] at hb2
          subst hb2
          exact cache_key_fresh tl.rows _ i hi huq a ha
      · refine ⟨tl, ?_, hsl, hil, hpl⟩
        rw [insert_findTable_other conn db tn supplied now db2 _ hins hn, htl]

/-! ## INSERT into `leaderboard_cache` -/

/-- The row built for `seedRow c`. -/
theorem buildRow_seed (t : Table) (c : Int) (now : String) :
    buildRow t now (seedRow c) leaderboardCacheSQL.columns =
      Except.ok (seedStoredRow c now) := by
  rfl

/-- The key check of a seed row: no stored row has the contestant. -/
theorem unique_seed (rows : List Row) (c : Int) (now : String) :
    leaderboardCacheSQL.columns.all (uniqueOk rows (seedStoredRow c now)) =
      rows.all (fun r => r.get "contestant_id" != SqlValue.integer c) := by
  have hget : (seedStoredRow c now).get "contestant_id" = SqlValue.integer c := rfl
  have hne : (SqlValue.integer c == SqlValue.null) = false := rfl
  simp only [leaderboardCacheSQL, plainColumn, List.all_cons, List.all_nil, uniqueOk, hget,
    hne, Bool.or_false, Bool.not_true, Bool.false_or, Bool.not_false, Bool.true_or,
    Bool.and_true]

/-- The foreign key check of a seed row looks for the contestant. -/
theorem foreignKey_seed (db : Database) (c : Int) (now : String) :
    leaderboardCacheSQL.foreignKeys.all (foreignKeyOk db (seedStoredRow c now)) =
      contestantExists db c := by
  have hget : (seedStoredRow c now).get "contestant_id" = SqlValue.integer c := rfl
  simp only [leaderboardCacheSQL, List.all_cons, List.all_nil, Bool.and_true, foreignKeyOk,
    hget, contestantExists]
  rfl

/-- What creating an aggregate row does on a database whose `leaderboard_cache` table is
the one of the schema. -/
theorem insert_seed_eq (conn : Connection) (db : Database) (t : Table) (c : Int)
    (now : String) (ht : db.findTable "leaderboard_cache" = some t)
    (hs : t.schema = leaderboardCacheSQL) :
    insert conn db "leaderboard_cache" (seedRow c) now =
      if t.rows.all (fun r => r.get "contestant_id" != SqlValue.integer c) = false then
        Except.error SqlError.uniqueFailed
      else if conn.foreignKeys = true ∧ contestantExists db c = false then
        Except.error SqlError.foreignKeyFailed
      else Except.ok
        { db with
          tables := replaceTable "leaderboard_cache" (t.push (seedStoredRow c now)) db.tables }
    := by
  have hcols : (seedRow c).all
      (fun p => leaderboardCacheSQL.columns.any (fun col => col.name == p.1)) = true := rfl
  have hnn : leaderboardCacheSQL.columns.all (notNullOk (seedStoredRow c now)) = true := rfl
  have hck : leaderboardCacheSQL.columns.all (checkOk (seedStoredRow c now)) = true := rfl
  unfold insert
  rw [ht]
  simp only [hs, hcols, hnn, hck, Bool.not_true, Bool.false_eq_true, if_false, buildRow_seed,
    unique_seed, foreignKey_seed]
  cases hu : t.rows.all (fun r => r.get "contestant_id" != SqlValue.integer c) <;>
    cases hfk : conn.foreignKeys <;> cases hex : contestantExists db c <;> simp

/-- An accepted `INSERT` into `penalty_shots` leaves the registered contestants as they
are. -/
theorem insert_shots_contestantExists (conn : Connection) (db : Database) (supplied : Row)
    (now : String) (db2 : Database) (c : Int)
    (h : insert conn db "penalty_shots" supplied now = Except.ok db2) :
    contestantExists db2 c = contestantExists db c := by
  have hf := insert_findTable_other conn db "penalty_shots" supplied now db2 "contestants" h
    (by decide)
  simp only [contestantExists, Database.rowsOf, hf]

/-- In a reachable database, a shot the table has accepted is accepted again exactly when
the table has an id left to give. -/
theorem insert_shot_again (conn : Connection) (db db2 : Database) (c : Int) (r : String)
    (n : Int) (now now2 : String) (hdb : SqlReachable db)
    (h : insert conn db "penalty_shots" (shotRow c r n) now = Except.ok db2) :
    insertAccepted conn db2 "penalty_shots" (shotRow c r n) now2 = true ↔
      shotIdAvailable db2 = true := by
  obtain ⟨⟨t, ht, hs, _⟩, _⟩ := sqlReachable_wellFormed db hdb
  obtain ⟨⟨t2, ht2, hs2, _⟩, _⟩ := sqlReachable_wellFormed db2
    (SqlReachable.insert conn db "penalty_shots" (shotRow c r n) now db2 hdb h)
  have hacc : insertAccepted conn db "penalty_shots" (shotRow c r n) now = true := by
    simp only [insertAccepted, h]
  obtain ⟨_, hr, hfk⟩ := (insert_shot_accepted_iff conn db t c r n now ht hs).mp hacc
  rw [insert_shot_accepted_iff conn db2 t2 c r n now2 ht2 hs2]
  simp only [shotIdAvailable, ht2, decide_eq_true_eq]
  constructor
  · exact fun h3 => h3.1
  · intro hid
    refine ⟨hid, hr, ?_⟩
    intro hc
    rw [insert_shots_contestantExists conn db (shotRow c r n) now db2 c h]
    exact hfk hc

/-! ## Claims about the server -/

/-- C2, as stated, fails. Submitting `(1, 1, goal)` twice for the registered contestant 1
stores no attempt (not one) and the answer carries no id; and the table accepts the same
`(contestant_id, attempt_number)` twice, even with foreign keys enforced, after which it
holds two rows with the pair `(1, 1)`. -/
theorem submit_twice_counterexample :
    (attemptsOf
        (serveAll [shotSubmission 1 1 "goal", shotSubmission 1 1 "goal"] oneContestantDb)
        (SqlValue.integer 1)).length = 0 ∧
      responseId (serve (shotSubmission 1 1 "goal") oneContestantDb).1 = none ∧
      (((insertResult (Connection.mk true)
          (insertResult (Connection.mk true) oneContestantDb "penalty_shots"
            (shotRow 1 "goal" 1) "t1")
          "penalty_shots" (shotRow 1 "goal" 1) "t2").rowsOf "penalty_shots").filter
        (fun r => r.get "contestant_id" == SqlValue.integer 1 &&
          r.get "attempt_number" == SqlValue.integer 1)).length = 2 := by
  refine ⟨?_, ?_, ?_⟩
  · rw [serveAll_keeps_db]; decide
  · rfl
  · decide

/-- C2, amended. For every database and every `(c, n, r)`: the second submission gets the
same answer as the first, status 200 with the fixed placeholder message and no id, and
neither stores an attempt or touches an aggregate, the database being left as it was. The
table itself keeps only `id` unique: no other column of `penalty_shots` is a key, and in
every reachable database a shot that was accepted is accepted a second time whenever the
table has an id left to give. -/
theorem submit_twice_same_answer_no_effect (db : Database) (c n : Int) (r : String) :
    (serve (shotSubmission c n r) (serve (shotSubmission c n r) db).2).1 =
        (serve (shotSubmission c n r) db).1 ∧
      (serve (shotSubmission c n r) db).1.status = 200 ∧
      (serve (shotSubmission c n r) db).1.body =
        Body.json [("message", "Penalty shots endpoint - to be implemented")] ∧
      responseId (serve (shotSubmission c n r) db).1 = none ∧
      serveAll [shotSubmission c n r, shotSubmission c n r] db = db ∧
      (∀ col ∈ penaltyShotsSQL.columns,
        (col.primaryKey || col.unique) = true → col.name = "id") ∧
      (∀ conn s s1 now now2, SqlReachable s →
        insert conn s "penalty_shots" (shotRow c r n) now = Except.ok s1 →
        (insertAccepted conn s1 "penalty_shots" (shotRow c r n) now2 = true ↔
          shotIdAvailable s1 = true)) := by
  refine ⟨?_, ?_, ?_, ?_, ?_, ?_,
    fun conn s s1 now now2 hs h => insert_shot_again conn s s1 c r n now now2 hs h⟩
  · simp only [serve_shotSubmission]
  · simp only [serve_shotSubmission]
  · simp only [serve_shotSubmission]
  · simp only [serve_shotSubmission]; rfl
  · exact serveAll_keeps_db _ db
  · decide

/-! ## The engine of the specification keeps aggregate and log in step -/

/-- An accepted `INSERT` into `tn` leaves the rows of every other table as they are. -/
theorem insert_rowsOf_other (conn : Connection) (db : Database) (tn : String)
    (supplied : Row) (now : String) (db2 : Database) (n : String)
    (h : insert conn db tn supplied now = Except.ok db2) (hne : n ≠ tn) :
    db2.rowsOf n = db.rowsOf n := by
  simp only [Database.rowsOf, insert_findTable_other conn db tn supplied now db2 n h hne]

/-- An accepted `INSERT` into `tn` appends one row, built from the supplied values and
passing the key check, to the rows of `tn`. -/
theorem insert_rowsOf_same (conn : Connection) (db : Database) (tn : String)
    (supplied : Row) (now : String) (db2 : Database)
    (h : insert conn db tn supplied now = Except.ok db2) :
    ∃ t row, db.findTable tn = some t ∧ db2.rowsOf tn = db.rowsOf tn ++ [row] ∧
      buildRow t now supplied t.schema.columns = Except.ok row ∧
      t.schema.columns.all (uniqueOk (db.rowsOf tn) row) = true := by
  obtain ⟨t, row, hf, hf2, hb, _, _, hu, _⟩ :=
    insert_findTable_same conn db tn supplied now db2 h
  refine ⟨t, row, hf, ?_, hb, ?_⟩
  · simp only [Database.rowsOf, hf, hf2, Table.push]
  · simpa only [Database.rowsOf, hf] using hu

/-- An accepted `INSERT` keeps the definition of every table. -/
theorem insert_schema (conn : Connection) (db : Database) (tn : String) (supplied : Row)
    (now : String) (db2 : Database) (n : String) (t : Table)
    (h : insert conn db tn supplied now = Except.ok db2) (ht : db.findTable n = some t) :
    ∃ t2, db2.findTable n = some t2 ∧ t2.schema = t.schema := by
  by_cases hn : n = tn
  · subst hn
    obtain ⟨t1, row, hf, hf2, _⟩ := insert_findTable_same conn db n supplied now db2 h
    rw [ht] at hf
    cases hf
    exact ⟨t.push row, hf2, rfl⟩
  · exact ⟨t, by rw [insert_findTable_other conn db tn supplied now db2 n h hn, ht], rfl⟩

/-- An accepted `INSERT` keeps the three tables in place. -/
theorem insert_schemaInPlace (conn : Connection) (db : Database) (tn : String)
    (supplied : Row) (now : String) (db2 : Database)
    (h : insert conn db tn supplied now = Except.ok db2) (hs : SchemaInPlace db) :
    SchemaInPlace db2 := by
  obtain ⟨⟨a, ha, hsa⟩, ⟨b, hb, hsb⟩, ⟨c, hc, hsc⟩⟩ := hs
  obtain ⟨a2, ha2, hsa2⟩ := insert_schema conn db tn supplied now db2 _ a h ha
  obtain ⟨b2, hb2, hsb2⟩ := insert_schema conn db tn supplied now db2 _ b h hb
  obtain ⟨c2, hc2, hsc2⟩ := insert_schema conn db tn supplied now db2 _ c h hc
  exact ⟨⟨a2, ha2, hsa2.trans hsa⟩, ⟨b2, hb2, hsb2.trans hsb⟩, ⟨c2, hc2, hsc2.trans hsc⟩⟩

/-- Rewriting the rows of `tn` leaves every other table as it is. -/
theorem mapRows_findTable_other (db : Database) (tn n : String) (f : Row → Row)
    (hne : n ≠ tn) : (mapRows db tn f).findTable n = db.findTable n := by
  unfold mapRows
  cases hf : db.findTable tn with
  | none => rfl
  | some t =>
    exact find_replaceTable_other tn n _ db.tables hne (findTable_name db tn t hf)

/-- Rewriting the rows of `tn` keeps its definition and maps its rows. -/
theorem mapRows_findTable_same (db : Database) (tn : String) (f : Row → Row) (t : Table)
    (hf : db.findTable tn = some t) :
    (mapRows db tn f).findTable tn = some { t with rows := t.rows.map f } := by
  unfold mapRows
  rw [hf]
  exact find_replaceTable_same tn t _ db.tables hf (findTable_name db tn t hf)

/-- The rows of `tn` after rewriting them. -/
theorem mapRows_rowsOf_same (db : Database) (tn : String) (f : Row → Row) :
    (mapRows db tn f).rowsOf tn = (db.rowsOf tn).map f := by
  cases hf : db.findTable tn with
  | none =>
    have : mapRows db tn f = db := by unfold mapRows; rw [hf]
    rw [this]
    simp only [Database.rowsOf, hf, List.map_nil]
  | some t =>
    simp only [Database.rowsOf, mapRows_findTable_same db tn f t hf, hf]

/-- The rows of another table after rewriting those of `tn`. -/
theorem mapRows_rowsOf_other (db : Database) (tn n : String) (f : Row → Row)
    (hne : n ≠ tn) : (mapRows db tn f).rowsOf n = db.rowsOf n := by
  simp only [Database.rowsOf, mapRows_findTable_other db tn n f hne]

/-- Rewriting rows keeps the three tables in place. -/
theorem mapRows_schemaInPlace (db : Database) (tn : String) (f : Row → Row)
    (hs : SchemaInPlace db) : SchemaInPlace (mapRows db tn f) := by
  have key : ∀ n t, db.findTable n = some t →
      ∃ t2, (mapRows db tn f).findTable n = some t2 ∧ t2.schema = t.schema := by
    intro n t ht
    by_cases hn : n = tn
    · subst hn
      exact ⟨_, mapRows_findTable_same db n f t ht, rfl⟩
    · exact ⟨t, by rw [mapRows_findTable_other db tn n f hn, ht], rfl⟩
  obtain ⟨⟨a, ha, hsa⟩, ⟨b, hb, hsb⟩, ⟨c, hc, hsc⟩⟩ := hs
  obtain ⟨a2, ha2, hsa2⟩ := key _ a ha
  obtain ⟨b2, hb2, hsb2⟩ := key _ b hb
  obtain ⟨c2, hc2, hsc2⟩ := key _ c hc
  exact ⟨⟨a2, ha2, hsa2.trans hsa⟩, ⟨b2, hb2, hsb2.trans hsb⟩, ⟨c2, hc2, hsc2.trans hsc⟩⟩

/-- A row built for a table whose first column is its rowid has an integer there. -/
theorem rowid_of_build (t : Table) (now : String) (supplied : Row) (c0 : Column)
    (rest : List Column) (row : Row) (hc : c0.isRowid = true)
    (hb : buildRow t now supplied (c0 :: rest) = Except.ok row) :
    ∃ i, row.get c0.name = SqlValue.integer i := by
  rw [buildRow] at hb
  split at hb
  · cases hb
  · rename_i v hv
    obtain ⟨i, hi⟩ := fillColumn_rowid t now supplied c0 v hc hv
    split at hb
    · cases hb
    · refine ⟨i, ?_⟩
      rw [← Except.ok.inj hb, hi]
      simp only [Row.get, List.lookup, beq_self_eq_true, Option.getD_some]

/-- A row that passed the key check of `contestants` has an `id` no stored row has. -/
theorem contestant_key_fresh (rows : List Row) (row : Row) (i : Int)
    (hi : row.get "id" = SqlValue.integer i)
    (hu : contestantsSQL.columns.all (uniqueOk rows row) = true) :
    ∀ r ∈ rows, r.get "id" ≠ SqlValue.integer i := by
  simp only [contestantsSQL, plainColumn, List.all_cons, List.all_nil, uniqueOk, hi,
    Bool.and_eq_true, Bool.or_eq_true] at hu
  obtain ⟨h, _⟩ := hu
  rcases h with h | h
  · rcases h with h | h
    · simp at h
    · simp at h
  · rw [List.all_eq_true] at h
    intro r hr
    have := h r hr
    simpa using this

/-- The row stored for an Attempt carries the contestant and the result submitted. -/
theorem attempt_of_build (t : Table) (now : String) (req : ShotRequest) (row : Row)
    (hb : buildRow t now (attemptRow req) penaltyShotsSQL.columns = Except.ok row) :
    row.get "contestant_id" = SqlValue.integer req.ContestantID ∧
      row.get "shot_result" = SqlValue.text req.ShotResult := by
  have hcols : penaltyShotsSQL.columns =
      { plainColumn "id" ColType.INTEGER with primaryKey := true, autoincrement := true } ::
        penaltyShotsSQL.columns.tail := rfl
  have hrest : buildRow t now (attemptRow req) penaltyShotsSQL.columns.tail =
      Except.ok
        [ ("contestant_id", SqlValue.integer req.ContestantID),
          ("shot_result", SqlValue.text req.ShotResult),
          ("attempt_number", SqlValue.integer req.AttemptNumber),
          ("timestamp", SqlValue.text now),
          ("operator_id", SqlValue.text req.OperatorID),
          ("session_id", SqlValue.text req.SessionID) ] := rfl
  rw [hcols, buildRow, hrest] at hb
  split at hb
  · cases hb
  · rw [← Except.ok.inj hb]
    exact ⟨rfl, rfl⟩

/-- The attempts of `x` are read from the rows of `penalty_shots` alone. -/
theorem attemptsOf_congr (db db2 : Database) (x : SqlValue)
    (h : db2.rowsOf "penalty_shots" = db.rowsOf "penalty_shots") :
    attemptsOf db2 x = attemptsOf db x ∧ goalsOf db2 x = goalsOf db x := by
  simp only [goalsOf, attemptsOf, h, and_self]

/-- The attempts of `x` after one more row is stored. -/
theorem attemptsOf_append (db db2 : Database) (x : SqlValue) (row : Row)
    (h : db2.rowsOf "penalty_shots" = db.rowsOf "penalty_shots" ++ [row]) :
    ((attemptsOf db2 x).length : Int) =
        (attemptsOf db x).length + (if row.get "contestant_id" = x then 1 else 0) ∧
      ((goalsOf db2 x).length : Int) =
        (goalsOf db x).length +
          (if row.get "contestant_id" = x ∧ row.get "shot_result" = SqlValue.text "goal"
            then 1 else 0) := by
  simp only [goalsOf, attemptsOf, h, List.filter_append, List.length_append, Nat.cast_add]
  by_cases h1 : row.get "contestant_id" = x
  · by_cases h2 : row.get "shot_result" = SqlValue.text "goal"
    · simp [List.filter_cons, h1, h2]
    · simp [List.filter_cons, h1, h2]
  · simp [List.filter_cons, h1]

/-- The database of cmd/setup has the three tables, and aggregate and log agree in it. -/
theorem setupDb_engine : SchemaInPlace setupDb ∧ AggregateConsistent setupDb := by
  refine ⟨⟨⟨⟨contestantsSQL, [], 0⟩, by decide, rfl⟩, ⟨⟨penaltyShotsSQL, [], 0⟩, by decide, rfl⟩,
    ⟨⟨leaderboardCacheSQL, [], 0⟩, by decide, rfl⟩⟩, ?_, ?_, ?_⟩
  · intro c hc
    have h : setupDb.rowsOf "contestants" = [] := by decide
    rw [h] at hc; cases hc
  · intro g hg
    have h : setupDb.rowsOf "leaderboard_cache" = [] := by decide
    rw [h] at hg; cases hg
  · intro a ha
    have h : setupDb.rowsOf "penalty_shots" = [] := by decide
    rw [h] at ha; cases ha

/-- Registering a contestant keeps the tables in place and aggregate and log in step. -/
theorem registerContestant_engine (db : Database) (badge name now : String)
    (hs : SchemaInPlace db) (hc : AggregateConsistent db) :
    SchemaInPlace (registerContestant db badge name now) ∧
      AggregateConsistent (registerContestant db badge name now) := by
  unfold registerContestant
  cases h1 : insert sqlOpen db "contestants"
      [("badge_id", SqlValue.text badge), ("name", SqlValue.text name)] now with
  | error e => exact ⟨hs, hc⟩
  | ok db1 =>
    simp only
    have hs1 := insert_schemaInPlace _ _ _ _ _ _ h1 hs
    obtain ⟨tc, crow, hfc, hrows1, hb1, hu1⟩ := insert_rowsOf_same _ _ _ _ _ _ h1
    obtain ⟨⟨tc0, htc0, hsc0⟩, _, _⟩ := hs
    rw [htc0] at hfc
    have e := Option.some.inj hfc
    subst e
    rw [hsc0] at hb1 hu1
    have hcols : contestantsSQL.columns =
        { plainColumn "id" ColType.INTEGER with primaryKey := true, autoincrement := true } ::
          contestantsSQL.columns.tail := rfl
    rw [hcols] at hb1
    obtain ⟨k, hk⟩ := rowid_of_build tc0 now _
      { plainColumn "id" ColType.INTEGER with primaryKey := true, autoincrement := true }
      contestantsSQL.columns.tail crow rfl hb1
    have hk2 : crow.get "id" = SqlValue.integer k := hk
    have hfresh := contestant_key_fresh _ crow k hk2 hu1
    have hlast : (db1.rowsOf "contestants").getLast? = some crow := by
      rw [hrows1]; simp
    rw [hlast]
    simp only [hk2]
    cases h2 : insert sqlOpen db1 "leaderboard_cache"
        [("contestant_id", SqlValue.integer k)] now with
    | error e => exact ⟨⟨⟨tc0, htc0, hsc0⟩, by assumption, by assumption⟩, hc⟩
    | ok db2 =>
      simp only
      have hs2 := insert_schemaInPlace _ _ _ _ _ _ h2 hs1
      refine ⟨hs2, ?_⟩
      obtain ⟨tl, grow, hfl, hrows2, hb2, _⟩ := insert_rowsOf_same _ _ _ _ _ _ h2
      obtain ⟨_, _, ⟨tl1, htl1, hsl1⟩⟩ := hs1
      rw [htl1] at hfl
      have e := Option.some.inj hfl
      subst e
      rw [hsl1] at hb2
      have hb3 : buildRow tl1 now (seedRow k) leaderboardCacheSQL.columns = Except.ok grow :=
        hb2
      rw [buildRow_seed] at hb3
      cases hb3
      have hC : db2.rowsOf "contestants" = db.rowsOf "contestants" ++ [crow] := by
        rw [insert_rowsOf_other _ _ _ _ _ _ "contestants" h2 (by decide), hrows1]
      have hL : db2.rowsOf "leaderboard_cache" =
          db.rowsOf "leaderboard_cache" ++ [seedStoredRow k now] := by
        rw [hrows2, insert_rowsOf_other _ _ _ _ _ _ "leaderboard_cache" h1 (by decide)]
      have hP : db2.rowsOf "penalty_shots" = db.rowsOf "penalty_shots" := by
        rw [insert_rowsOf_other _ _ _ _ _ _ "penalty_shots" h2 (by decide),
          insert_rowsOf_other _ _ _ _ _ _ "penalty_shots" h1 (by decide)]
      obtain ⟨hA, hB, hD⟩ := hc
      refine ⟨?_, ?_, ?_⟩
      · intro c hcm
        rw [hC, List.mem_append, List.mem_singleton] at hcm
        rw [hL]
        rcases hcm with hcm | rfl
        · obtain ⟨g, hg, hgc⟩ := hA c hcm
          exact ⟨g, List.mem_append_left _ hg, hgc⟩
        · exact ⟨seedStoredRow k now, List.mem_append_right _ (List.mem_singleton_self _),
            hk2.symm⟩
      · intro g hg
        rw [hL, List.mem_append, List.mem_singleton] at hg
        obtain ⟨e1, e2⟩ := attemptsOf_congr db db2 (g.get "contestant_id") hP
        rw [e1, e2]
        rcases hg with hg | rfl
        · exact hB g hg
        · have hnone : attemptsOf db (SqlValue.integer k) = [] := by
            rw [attemptsOf, List.filter_eq_nil_iff]
            intro a ha hak
            obtain ⟨c, hcm, hca⟩ := hD a ha
            have hak2 : a.get "contestant_id" = SqlValue.integer k := by simpa using hak
            exact hfresh c hcm (hca.trans hak2)
          have hget : (seedStoredRow k now).get "contestant_id" = SqlValue.integer k := rfl
          rw [hget, goalsOf, hnone]
          exact ⟨rfl, rfl⟩
      · intro a ha
        rw [hP] at ha
        obtain ⟨c, hcm, hca⟩ := hD a ha
        rw [hC]
        exact ⟨c, List.mem_append_left _ hcm, hca⟩

/-- The adjusted Aggregate row, when both counters are integers. -/
theorem bumpAggregate_of_int (isGoal : Bool) (now : String) (agg : Row) (t g : Int)
    (h1 : agg.get "total_attempts" = SqlValue.integer t)
    (h2 : agg.get "successful_shots" = SqlValue.integer g) :
    bumpAggregate isGoal now agg =
      [ ("contestant_id", agg.get "contestant_id"),
        ("total_attempts", SqlValue.integer (t + 1)),
        ("successful_shots", SqlValue.integer (g + (if isGoal then 1 else 0))),
        ("success_percentage",
          SqlValue.real (specSuccessPercentage (g + (if isGoal then 1 else 0)) (t + 1))),
        ("last_updated", SqlValue.text now) ] := by
  simp only [bumpAggregate, h1, h2]

/-- A submission either leaves the database as it is, or, for a registered contestant,
stores one Attempt and then adjusts the Aggregate row of that contestant. -/
theorem afterRecord_cases (db : Database) (req : ShotRequest) (now : String) :
    afterRecord db req now = db ∨
      ∃ db1, contestantExists db req.ContestantID = true ∧
        insert sqlOpen db "penalty_shots" (attemptRow req) now = Except.ok db1 ∧
        afterRecord db req now =
          updateAggregate db1 req.ContestantID (req.ShotResult == "goal") now := by
  by_cases hex : contestantExists db req.ContestantID = true
  case neg => left; simp [afterRecord, recordAttempt, hex]
  by_cases hr : (req.ShotResult == "goal" || req.ShotResult == "miss") = true
  case neg => left; simp [afterRecord, recordAttempt, hex, hr]
  by_cases hn : req.AttemptNumber < 1
  case pos => left; simp [afterRecord, recordAttempt, hex, hr, hn]
  cases hf : findAttempt db req.ContestantID req.AttemptNumber with
  | some stored => left; simp [afterRecord, recordAttempt, hex, hr, hn, hf]
  | none =>
    by_cases ha : hasAggregate db req.ContestantID = true
    case neg => left; simp [afterRecord, recordAttempt, hex, hr, hn, hf, ha]
    cases hi : insert sqlOpen db "penalty_shots" (attemptRow req) now with
    | error e => left; simp [afterRecord, recordAttempt, hex, hr, hn, hf, ha, hi]
    | ok db1 =>
      right
      refine ⟨db1, hex, rfl, ?_⟩
      simp [afterRecord, recordAttempt, hex, hr, hn, hf, ha, hi]

/-- A submission keeps the tables in place and aggregate and log in step. -/
theorem afterRecord_engine (db : Database) (req : ShotRequest) (now : String)
    (hs : SchemaInPlace db) (hc : AggregateConsistent db) :
    SchemaInPlace (afterRecord db req now) ∧ AggregateConsistent (afterRecord db req now) := by
  rcases afterRecord_cases db req now with h | ⟨db1, hex, hins, h⟩
  · rw [h]; exact ⟨hs, hc⟩
  · rw [h]
    have hs1 := insert_schemaInPlace _ _ _ _ _ _ hins hs
    refine ⟨mapRows_schemaInPlace db1 _ _ hs1, ?_⟩
    obtain ⟨tp, arow, hfp, hrowsP, hb, _⟩ := insert_rowsOf_same _ _ _ _ _ _ hins
    obtain ⟨_, ⟨tp0, htp0, hsp0⟩, _⟩ := hs
    rw [htp0] at hfp
    have e := Option.some.inj hfp
    subst e
    rw [hsp0] at hb
    obtain ⟨hac, har⟩ := attempt_of_build tp0 now req arow hb
    have hP : (updateAggregate db1 req.ContestantID (req.ShotResult == "goal") now).rowsOf
        "penalty_shots" = db.rowsOf "penalty_shots" ++ [arow] := by
      rw [updateAggregate, mapRows_rowsOf_other _ _ _ _ (by decide), hrowsP]
    have hC : (updateAggregate db1 req.ContestantID (req.ShotResult == "goal") now).rowsOf
        "contestants" = db.rowsOf "contestants" := by
      rw [updateAggregate, mapRows_rowsOf_other _ _ _ _ (by decide),
        insert_rowsOf_other _ _ _ _ _ _ "contestants" hins (by decide)]
    have hL : (updateAggregate db1 req.ContestantID (req.ShotResult == "goal") now).rowsOf
        "leaderboard_cache" = (db.rowsOf "leaderboard_cache").map (fun g =>
          if g.get "contestant_id" == SqlValue.integer req.ContestantID then
            bumpAggregate (req.ShotResult == "goal") now g
          else g) := by
      rw [updateAggregate, mapRows_rowsOf_same,
        insert_rowsOf_other _ _ _ _ _ _ "leaderboard_cache" hins (by decide)]
    obtain ⟨hA, hB, hD⟩ := hc
    refine ⟨?_, ?_, ?_⟩
    · intro c hcm
      rw [hC] at hcm
      obtain ⟨g, hg, hgc⟩ := hA c hcm
      rw [hL]
      by_cases hgk : g.get "contestant_id" = SqlValue.integer req.ContestantID
      · refine ⟨bumpAggregate (req.ShotResult == "goal") now g, ?_, ?_⟩
        · rw [List.mem_map]
          refine ⟨g, hg, ?_⟩
          simp only [hgk, beq_self_eq_true, if_true]
        · rw [bumpAggregate_of_int _ _ g _ _ (hB g hg).1 (hB g hg).2]
          exact hgc
      · refine ⟨g, ?_, hgc⟩
        rw [List.mem_map]
        refine ⟨g, hg, ?_⟩
        have hf : (g.get "contestant_id" == SqlValue.integer req.ContestantID) = false := by
          simp only [beq_eq_false_iff_ne, ne_eq]; exact hgk
        simp only [hf, Bool.false_eq_true, if_false]
    · intro g2 hg2
      rw [hL, List.mem_map] at hg2
      obtain ⟨g, hg, rfl⟩ := hg2
      obtain ⟨hT, hG⟩ := hB g hg
      by_cases hgk : g.get "contestant_id" = SqlValue.integer req.ContestantID
      · simp only [hgk, beq_self_eq_true, if_true]
        rw [bumpAggregate_of_int _ _ g _ _ hT hG]
        have hget : Row.get
            [ ("contestant_id", g.get "contestant_id"),
              ("total_attempts", SqlValue.integer
                (((attemptsOf db (g.get "contestant_id")).length : Int) + 1)),
              ("successful_shots", SqlValue.integer
                (((goalsOf db (g.get "contestant_id")).length : Int) +
                  (if (req.ShotResult == "goal") = true then 1 else 0))),
              ("success_percentage", SqlValue.real (specSuccessPercentage
                (((goalsOf db (g.get "contestant_id")).length : Int) +
                  (if (req.ShotResult == "goal") = true then 1 else 0))
                (((attemptsOf db (g.get "contestant_id")).length : Int) + 1))),
              ("last_updated", SqlValue.text now) ] "contestant_id" =
            g.get "contestant_id" := rfl
        obtain ⟨e1, e2⟩ := attemptsOf_append db _ (g.get "contestant_id") arow hP
        refine ⟨?_, ?_⟩
        · show SqlValue.integer _ = SqlValue.integer _
          rw [hget, e1, hac, hgk]
          simp only [if_true]
        · show SqlValue.integer _ = SqlValue.integer _
          rw [hget, e2, hac, har, hgk]
          by_cases hgoal : req.ShotResult = "goal"
          · simp [hgoal]
          · simp [hgoal]
      · have hf : (g.get "contestant_id" == SqlValue.integer req.ContestantID) = false := by
          simp only [beq_eq_false_iff_ne, ne_eq]; exact hgk
        simp only [hf, Bool.false_eq_true, if_false]
        obtain ⟨e1, e2⟩ := attemptsOf_append db _ (g.get "contestant_id") arow hP
        have hne : ¬ arow.get "contestant_id" = g.get "contestant_id" := by
          rw [hac]; exact fun e => hgk e.symm
        simp only [hne, if_false, false_and, add_zero, Nat.cast_inj] at e1 e2
        rw [hT, hG]
        exact ⟨congrArg SqlValue.integer (by exact_mod_cast e1.symm),
          congrArg SqlValue.integer (by exact_mod_cast e2.symm)⟩
    · intro a ha
      rw [hP, List.mem_append, List.mem_singleton] at ha
      rw [hC]
      rcases ha with ha | rfl
      · exact hD a ha
      · simp only [contestantExists, List.any_eq_true, beq_iff_eq] at hex
        obtain ⟨c, hcm, hci⟩ := hex
        exact ⟨c, hcm, hci.trans hac.symm⟩

/-- In every state the engine reaches, the tables are in place and aggregate and log
agree. -/
theorem engineReachable_engine (db : Database) (h : EngineReachable db) :
    SchemaInPlace db ∧ AggregateConsistent db := by
  induction h with
  | setup => exact setupDb_engine
  | register badge name now db _ ih => exact registerContestant_engine db badge name now ih.1 ih.2
  | record req now db _ ih => exact afterRecord_engine db req now ih.1 ih.2
  | request req db _ ih => rw [serve_keeps_db]; exact ih

/-- The leaderboard order compares any two entries. -/
theorem rankedBefore_total (a b : LeaderboardEntry) : rankedBefore a b ∨ rankedBefore b a := by
  unfold rankedBefore
  rcases lt_trichotomy a.SuccessPercentage b.SuccessPercentage with h | h | h
  · exact Or.inr (Or.inl h)
  · rcases lt_trichotomy a.TotalAttempts b.TotalAttempts with k | k | k
    · exact Or.inr (Or.inr ⟨h.symm, Or.inl k⟩)
    · rcases le_total a.ContestantID b.ContestantID with m | m
      · exact Or.inl (Or.inr ⟨h, Or.inr ⟨k, m⟩⟩)
      · exact Or.inr (Or.inr ⟨h.symm, Or.inr ⟨k.symm, m⟩⟩)
    · exact Or.inl (Or.inr ⟨h, Or.inl k⟩)
  · exact Or.inl (Or.inl h)

/-- The leaderboard order is transitive. -/
theorem rankedBefore_trans (a b c : LeaderboardEntry) (hab : rankedBefore a b)
    (hbc : rankedBefore b c) : rankedBefore a c := by
  unfold rankedBefore at hab hbc ⊢
  rcases hab with h1 | ⟨h1, h2⟩
  · rcases hbc with k1 | ⟨k1, _⟩
    · exact Or.inl (gt_trans h1 k1)
    · exact Or.inl (k1 ▸ h1)
  · rcases hbc with k1 | ⟨k1, k2⟩
    · exact Or.inl (h1 ▸ k1)
    · refine Or.inr ⟨h1.trans k1, ?_⟩
      rcases h2 with h2 | ⟨h2, h3⟩
      · rcases k2 with k2 | ⟨k2, _⟩
        · exact Or.inl (gt_trans h2 k2)
        · exact Or.inl (k2 ▸ h2)
      · rcases k2 with k2 | ⟨k2, k3⟩
        · exact Or.inl (h2 ▸ k2)
        · exact Or.inr ⟨h2.trans k2, le_trans h3 k3⟩

/-- The eligible contestants, sorted, are in leaderboard order. -/
theorem sorted_eligible (l : List LeaderboardEntry) :
    (l.insertionSort rankedBefore).Pairwise rankedBefore :=
  @List.sorted_insertionSort LeaderboardEntry rankedBefore _
    ⟨rankedBefore_total⟩ ⟨rankedBefore_trans⟩ l

/-- The example of the specification: A with (3, 2, 66.67) and B with (1, 1, 100) are
listed B before A. -/
theorem sorted_spec_example :
    ([LeaderboardEntry.mk 1 "A" "" 3 2 (200 / 3) "t3",
      LeaderboardEntry.mk 2 "B" "" 1 1 100 "t4"]).insertionSort rankedBefore =
    [LeaderboardEntry.mk 2 "B" "" 1 1 100 "t4",
      LeaderboardEntry.mk 1 "A" "" 3 2 (200 / 3) "t3"] := by
  have h : ¬ rankedBefore (LeaderboardEntry.mk 1 "A" "" 3 2 (200 / 3) "t3")
      (LeaderboardEntry.mk 2 "B" "" 1 1 100 "t4") := by
    unfold rankedBefore
    norm_num
  simp only [List.insertionSort, List.orderedInsert, h, if_false]

/-- C1. In every state the attempt-recording engine of the specification reaches from the
database created by cmd/setup, by registrations, submissions and requests to the routes
the source serves: every contestant has a `leaderboard_cache` row, every
`leaderboard_cache` row has `total_attempts` equal to the number of `penalty_shots` rows
of its contestant and `successful_shots` equal to the number of those with result `goal`,
and every attempt belongs to a contestant. -/
theorem aggregate_consistent_of_engineReachable (db : Database) (h : EngineReachable db) :
    AggregateConsistent db ∧
      (∀ c ∈ db.rowsOf "contestants", ∃ g ∈ db.rowsOf "leaderboard_cache",
        g.get "contestant_id" = c.get "id" ∧
          g.get "total_attempts" = SqlValue.integer (attemptsOf db (c.get "id")).length ∧
          g.get "successful_shots" = SqlValue.integer (goalsOf db (c.get "id")).length) := by
  obtain ⟨_, hc⟩ := engineReachable_engine db h
  refine ⟨hc, ?_⟩
  intro c hcm
  obtain ⟨g, hg, hgc⟩ := hc.1 c hcm
  obtain ⟨hT, hG⟩ := hc.2.1 g hg
  rw [hgc] at hT hG
  exact ⟨g, hg, hgc, hT, hG⟩

/-- C1 at a concrete run: one registration, a goal, a miss and a retry of the goal leave
one contestant, two attempts and an aggregate row counting two attempts and one goal. -/
theorem aggregate_consistent_of_engineReachable_witness :
    EngineReachable playedDb ∧ AggregateConsistent playedDb ∧
      (playedDb.rowsOf "contestants").length = 1 ∧
      (playedDb.rowsOf "penalty_shots").length = 2 ∧
      (playedDb.rowsOf "leaderboard_cache").map
          (fun g => (g.get "contestant_id", g.get "total_attempts", g.get "successful_shots")) =
        [(SqlValue.integer 1, SqlValue.integer 2, SqlValue.integer 1)] :=
  ⟨EngineReachable.record _ _ _ (EngineReachable.record _ _ _ (EngineReachable.record _ _ _
      (EngineReachable.register _ _ _ _ EngineReachable.setup))),
   (aggregate_consistent_of_engineReachable playedDb
      (EngineReachable.record _ _ _ (EngineReachable.record _ _ _ (EngineReachable.record _ _ _
        (EngineReachable.register _ _ _ _ EngineReachable.setup))))).1,
   by decide, by decide, by decide⟩

/-- C3. For every aggregate store, filter, limit and day, the entries the leaderboard
query returns are sorted by `success_percentage` descending, ties broken by
`total_attempts` descending, remaining ties by `contestant_id` ascending, so that of two
entries with equal percentage and equal attempts the one listed first has the smaller or
equal `contestant_id`. The entries are the eligible contestants of the store: all of them
when the limit is unbounded, and the first `limit` of them in this order otherwise. -/
theorem leaderboard_entries_ranked (db : Database) (filter : LeaderboardFilter) (limit : Int)
    (today : String) :
    (getLeaderboard db filter limit today).Entries.Pairwise rankedBefore ∧
      (∀ a b, List.Sublist [a, b] (getLeaderboard db filter limit today).Entries →
        a.SuccessPercentage = b.SuccessPercentage → a.TotalAttempts = b.TotalAttempts →
        a.ContestantID ≤ b.ContestantID) ∧
      (effectiveLimit filter limit ≤ 0 →
        (getLeaderboard db filter limit today).Entries.Perm
          (eligibleEntries db filter today)) ∧
      (0 < effectiveLimit filter limit →
        (getLeaderboard db filter limit today).Entries =
          ((eligibleEntries db filter today).insertionSort rankedBefore).take
            (effectiveLimit filter limit).toNat) ∧
      ((eligibleEntries db filter today).insertionSort rankedBefore).Perm
        (eligibleEntries db filter today) ∧
      (getLeaderboard db filter limit today).Total =
        ((eligibleEntries db filter today).length : Int) := by
  have hsorted : (getLeaderboard db filter limit today).Entries.Pairwise rankedBefore := by
    unfold getLeaderboard
    simp only
    split
    · exact sorted_eligible _
    · exact (sorted_eligible _).sublist (List.take_sublist _ _)
  refine ⟨hsorted, ?_, ?_, ?_, List.perm_insertionSort rankedBefore _, rfl⟩
  · intro a b hab hp ht
    have hr : rankedBefore a b := (List.pairwise_iff_forall_sublist.mp hsorted) hab
    unfold rankedBefore at hr
    rcases hr with h | ⟨_, h | ⟨_, h⟩⟩
    · exact absurd hp (ne_of_gt h)
    · exact absurd ht (ne_of_gt h)
    · exact h
  · intro hlim
    unfold getLeaderboard
    simp only [hlim, if_true]
    exact List.perm_insertionSort rankedBefore _
  · intro hlim
    unfold getLeaderboard
    simp only [not_le.mpr hlim, if_false]

/-- C7. Every route registered for penalty shots is a `POST` route, no `PUT` or `DELETE`
route is registered, no statement of cmd/setup is an `UPDATE`, `DELETE` or `DROP`, the
server leaves the database as it is, and a run of cmd/setup on any database keeps every
stored attempt. -/
theorem attempt_log_append_only :
    (∀ r ∈ routes, r.path = "/api/penalty-shots" → r.method = Method.POST) ∧
      (∀ r ∈ routes, r.method ≠ Method.PUT ∧ r.method ≠ Method.DELETE) ∧
      (∀ s ∈ setupStatements,
        s.kind ≠ StmtKind.update ∧ s.kind ≠ StmtKind.delete ∧ s.kind ≠ StmtKind.dropTable) ∧
      (∀ req db, (serve req db).2.rowsOf "penalty_shots" = db.rowsOf "penalty_shots") ∧
      (∀ reqs db, (serveAll reqs db).rowsOf "penalty_shots" = db.rowsOf "penalty_shots") ∧
      (∀ db, (setupMain db).1.rowsOf "penalty_shots" = db.rowsOf "penalty_shots") := by
  refine ⟨?_, ?_, ?_, ?_, ?_, fun db => setupMain_rowsOf db _⟩
  · intro r hr
    simp only [routes, List.mem_cons, List.mem_singleton, List.not_mem_nil, or_false] at hr
    rcases hr with h | h | h | h | h | h | h | h | h | h <;> subst h <;> decide
  · intro r hr
    simp only [routes, List.mem_cons, List.mem_singleton, List.not_mem_nil, or_false] at hr
    rcases hr with h | h | h | h | h | h | h | h | h | h <;> subst h <;> decide
  · decide
  · intro req db; rw [serve_keeps_db]
  · intro reqs db; rw [serveAll_keeps_db]

/-- C9, as stated, fails: a `LeaderboardRequest` whose filter is `bogus`, none of `all`,
`today`, `top10`, passes validation. -/
theorem leaderboard_filter_counterexample :
    (LeaderboardRequest.mk "bogus" 0).valid = true ∧
      "bogus" ≠ "all" ∧ "bogus" ≠ "today" ∧ "bogus" ≠ "top10" := by
  decide

/-- C9, amended. The filter is an open string: `LeaderboardRequest` carries no `binding`
rule, so a request with any filter `f` and any limit passes validation, and the leaderboard
route answers every filter alike. -/
theorem leaderboard_filter_open (f : String) (limit : Int) (db : Database) :
    (LeaderboardRequest.mk f limit).valid = true ∧
      (∀ fv ∈ (LeaderboardRequest.mk f limit).bindings, fv.2 = []) ∧
      serve (leaderboardQuery f limit) db = serve (leaderboardQuery "all" limit) db := by
  refine ⟨rfl, ?_, ?_⟩
  · intro fv hfv
    simp only [LeaderboardRequest.bindings, List.mem_cons, List.mem_singleton,
      List.not_mem_nil, or_false] at hfv
    rcases hfv with h | h <;> subst h <;> rfl
  · simp only [serve_leaderboardQuery]

/-! ## Claims about the schema -/

/-- The catalog with the journal mode set has the same tables and indexes. -/
theorem hasSchemaTables_of_tables (a b : Database) (h : a.tables = b.tables)
    (hb : hasSchemaTables b) : hasSchemaTables a := by
  simpa only [hasSchemaTables, Database.hasTable, h] using hb

/-- C10. On every database on which `createTables` and then `createIndexes` have
succeeded, and on every database that rows inserted since lead to, running `createTables`
and `createIndexes` again returns no error and leaves the database (tables with their
columns, constraints and rows, and indexes) as it is; a whole further run of cmd/setup
succeeds and changes at most the journal mode, to `wal`. -/
theorem setup_again_changes_nothing (db d1 d2 : Database)
    (h1 : createTables db = (d1, none)) (h2 : createIndexes d1 = (d2, none)) :
    createTables d2 = (d2, none) ∧ createIndexes d2 = (d2, none) ∧
      setupMain d2 = ({ d2 with journalMode := "wal" }, none) ∧
      (∀ d3, LaterThan d2 d3 →
        createTables d3 = (d3, none) ∧ createIndexes d3 = (d3, none) ∧
          setupMain d3 = ({ d3 with journalMode := "wal" }, none)) := by
  obtain ⟨ht1, _⟩ := createTables_ok db d1 h1
  obtain ⟨hi2, _, htabs⟩ := createIndexesLoop_ok indexes d1 d2 h2
  have ht2 : hasSchemaTables d2 := hasSchemaTables_of_tables d2 d1 htabs ht1
  have key : ∀ d3, hasSchemaTables d3 → (∀ i ∈ indexes, d3.hasIndex i.name = true) →
      createTables d3 = (d3, none) ∧ createIndexes d3 = (d3, none) ∧
        setupMain d3 = ({ d3 with journalMode := "wal" }, none) := by
    intro d3 ht3 hi3
    have ht4 : hasSchemaTables { d3 with journalMode := "wal" } :=
      hasSchemaTables_of_tables _ d3 rfl ht3
    refine ⟨createTables_of_has d3 ht3, createIndexesLoop_of_has indexes d3 hi3, ?_⟩
    unfold setupMain
    simp only [exec]
    rw [createTables_of_has _ ht4]
    simp only
    unfold createIndexes
    rw [createIndexesLoop_of_has indexes { d3 with journalMode := "wal" }
      (fun i hi => hi3 i hi)]
  obtain ⟨k1, k2, k3⟩ := key d2 ht2 hi2
  refine ⟨k1, k2, k3, ?_⟩
  intro d3 hlater
  obtain ⟨hc1, hc2⟩ := laterThan_catalog d2 d3 hlater
  refine key d3 ?_ ?_
  · simpa only [hasSchemaTables, hc1] using ht2
  · intro i hi
    have := hi2 i hi
    simpa only [Database.hasIndex, hc2] using this

/-- C10 at a concrete run: a second setup on the database a first setup created. -/
theorem setup_again_changes_nothing_witness :
    createTables setupDb = (setupDb, none) ∧ createIndexes setupDb = (setupDb, none) ∧
      setupMain setupDb = ({ setupDb with journalMode := "wal" }, none) ∧
      (∀ d3, LaterThan setupDb d3 →
        createTables d3 = (d3, none) ∧ createIndexes d3 = (d3, none) ∧
          setupMain d3 = ({ d3 with journalMode := "wal" }, none)) :=
  setup_again_changes_nothing { Database.empty with journalMode := "wal" }
    (createTables { Database.empty with journalMode := "wal" }).1 setupDb
    (by decide) (by decide)

/-- When a `ShotRequest` passes validation. -/
theorem shotRequest_valid_iff (c : Int) (r : String) (n : Int) (o s : String) :
    (ShotRequest.mk c r n o s).valid = true ↔
      (c ≠ 0 ∧ (r = "goal" ∨ r = "miss") ∧ 1 ≤ n) := by
  simp only [ShotRequest.valid, validate, ShotRequest.bindings, List.all_cons, List.all_nil,
    Bool.and_true, Bool.and_eq_true, shotResultBinding, attemptNumberBinding, Rule.passes,
    bne_iff_ne, ne_eq, decide_eq_true_eq, List.contains_cons, List.contains_nil,
    Bool.or_false, Bool.or_eq_true, beq_iff_eq]
  constructor
  · rintro ⟨hc, ⟨_, hr⟩, ⟨_, hn⟩⟩
    exact ⟨hc, hr, hn⟩
  · rintro ⟨hc, hr, hn⟩
    refine ⟨hc, ⟨?_, hr⟩, ⟨by omega, hn⟩⟩
    rcases hr with h | h <;> rw [h] <;> decide

/-- The database with one registered contestant is reachable. -/
theorem oneContestantDb_reachable : SqlReachable oneContestantDb :=
  SqlReachable.insert sqlOpen setupDb "contestants"
    [("badge_id", SqlValue.text "B-1"), ("name", SqlValue.text "Ada")] "t0" oneContestantDb
    SqlReachable.setup rfl

/-- C4. For every string `r`: the `shot_result` binding passes exactly when `r` is `goal`
or `miss`, and so a `ShotRequest` is valid exactly when, besides, its contestant id is not
zero and its attempt number is at least 1; the `CHECK` of the `penalty_shots` table passes
a row with result `r` exactly when `r` is `goal` or `miss`; in every reachable database an
`INSERT` of a shot with another result is refused, one with `goal` or `miss` is never
refused by the `CHECK`, and on the connection the program opens it is accepted as long as
the table has an id left to give (on a connection enforcing foreign keys the contestant
must exist as well); and no stored row has another result. -/
theorem shot_result_goal_or_miss (r : String) (db : Database) (hdb : SqlReachable db) :
    (shotResultBinding.all (fun rule => rule.passes (FieldValue.str r)) = true ↔
        (r = "goal" ∨ r = "miss")) ∧
      (∀ c n o s, (ShotRequest.mk c r n o s).valid = true ↔
        (c ≠ 0 ∧ (r = "goal" ∨ r = "miss") ∧ 1 ≤ n)) ∧
      (∀ row : Row, row.get "shot_result" = SqlValue.text r →
        (penaltyShotsSQL.columns.all (checkOk row) = true ↔ (r = "goal" ∨ r = "miss"))) ∧
      (∀ conn c n now, ¬ (r = "goal" ∨ r = "miss") →
        insertAccepted conn db "penalty_shots" (shotRow c r n) now = false) ∧
      (∀ conn c n now, (r = "goal" ∨ r = "miss") →
        insert conn db "penalty_shots" (shotRow c r n) now ≠
          Except.error SqlError.checkFailed) ∧
      (∀ c n now, shotIdAvailable db = true →
        (insertAccepted sqlOpen db "penalty_shots" (shotRow c r n) now = true ↔
          (r = "goal" ∨ r = "miss"))) ∧
      (∀ conn c n now, insertAccepted conn db "penalty_shots" (shotRow c r n) now = true ↔
        (shotIdAvailable db = true ∧ (r = "goal" ∨ r = "miss") ∧
          (conn.foreignKeys = true → contestantExists db c = true))) ∧
      (∀ row ∈ db.rowsOf "penalty_shots",
        row.get "shot_result" = SqlValue.text "goal" ∨
          row.get "shot_result" = SqlValue.text "miss") := by
  obtain ⟨⟨t, ht, hs, hrows⟩, _⟩ := sqlReachable_wellFormed db hdb
  have hbind : shotResultBinding.all (fun rule => rule.passes (FieldValue.str r)) = true ↔
      (r = "goal" ∨ r = "miss") := by
    simp only [shotResultBinding, List.all_cons, List.all_nil, Rule.passes, Bool.and_true,
      Bool.and_eq_true, bne_iff_ne, ne_eq, List.contains_cons, List.contains_nil,
      Bool.or_false, Bool.or_eq_true, beq_iff_eq]
    constructor
    · exact fun h => h.2
    · intro h
      refine ⟨?_, h⟩
      rcases h with h | h <;> rw [h] <;> decide
  have hid : shotIdAvailable db = true ↔
      max t.seq (maxRowid "id" t.rows) < maxRowidValue := by
    simp only [shotIdAvailable, ht, decide_eq_true_eq]
  have hacc : ∀ conn c n now,
      insertAccepted conn db "penalty_shots" (shotRow c r n) now = true ↔
        (shotIdAvailable db = true ∧ (r = "goal" ∨ r = "miss") ∧
          (conn.foreignKeys = true → contestantExists db c = true)) := by
    intro conn c n now
    rw [hid]
    exact insert_shot_accepted_iff conn db t c r n now ht hs
  refine ⟨hbind, fun c n o s => shotRequest_valid_iff c r n o s, ?_, ?_, ?_, ?_, hacc, ?_⟩
  · intro row hrow
    simp only [penaltyShotsSQL, plainColumn, List.all_cons, List.all_nil, checkOk, hrow,
      Bool.true_and, Bool.and_true, List.contains_cons, List.contains_nil, Bool.or_false,
      Bool.or_eq_true, beq_iff_eq]
  · intro conn c n now hr
    cases hv : insertAccepted conn db "penalty_shots" (shotRow c r n) now with
    | false => rfl
    | true => exact absurd ((hacc conn c n now).mp hv).2.1 hr
  · intro conn c n now hr
    rw [insert_shot_eq conn db t c r n now ht hs]
    by_cases h1 : max t.seq (maxRowid "id" t.rows) < maxRowidValue
    · cases hfk : conn.foreignKeys <;> cases hex : contestantExists db c <;>
        simp [h1, hr]
    · simp [h1]
  · intro c n now havail
    rw [hacc sqlOpen c n now]
    constructor
    · exact fun h => h.2.1
    · intro hr
      exact ⟨havail, hr, fun hf => absurd hf (by decide)⟩
  · intro row hrow
    simp only [Database.rowsOf, ht] at hrow
    exact hrows row hrow

/-- C4 at a concrete input: the results `own goal` and `goal` on the database with one
contestant. -/
theorem shot_result_goal_or_miss_witness :
    SqlReachable oneContestantDb ∧
      ¬ (shotResultBinding.all (fun rule => rule.passes (FieldValue.str "own goal")) = true) ∧
      insertAccepted sqlOpen oneContestantDb "penalty_shots" (shotRow 1 "own goal" 1) "t1"
        = false ∧
      insertAccepted sqlOpen oneContestantDb "penalty_shots" (shotRow 1 "goal" 1) "t1"
        = true :=
  ⟨oneContestantDb_reachable,
   fun h => absurd
     ((shot_result_goal_or_miss "own goal" oneContestantDb oneContestantDb_reachable).1.mp h)
     (by decide),
   (shot_result_goal_or_miss "own goal" oneContestantDb
      oneContestantDb_reachable).2.2.2.1 sqlOpen 1 1 "t1" (by decide),
   ((shot_result_goal_or_miss "goal" oneContestantDb
      oneContestantDb_reachable).2.2.2.2.2.1 1 1 "t1" (by decide)).mpr (by decide)⟩

/-- C5, as stated, fails: the table admits a shot with attempt number 0, and one with
attempt number -5, for the registered contestant 1, and stores the number as given. -/
theorem attempt_number_counterexample :
    insertAccepted sqlOpen oneContestantDb "penalty_shots" (shotRow 1 "goal" 0) "t1" = true ∧
      insertAccepted (Connection.mk true) oneContestantDb "penalty_shots"
        (shotRow 1 "miss" (-5)) "t1" = true ∧
      ((insertResult sqlOpen oneContestantDb "penalty_shots" (shotRow 1 "goal" 0)
          "t1").rowsOf "penalty_shots").map (fun row => row.get "attempt_number") =
        [SqlValue.integer 0] := by
  decide

/-- C5, amended. For every integer `n`: the `attempt_number` binding passes exactly when
`n ≥ 1`, so no `ShotRequest` with `n < 1` is valid and one with `n ≥ 1` is valid whenever
its other fields are; the `penalty_shots` table has no rule on the number beyond
`NOT NULL`: in every reachable database it admits a shot with number `n` exactly when it
admits the same shot with any other number `m`. -/
theorem attempt_number_checked_by_binding_only (n : Int) (db : Database)
    (hdb : SqlReachable db) :
    (attemptNumberBinding.all (fun rule => rule.passes (FieldValue.int n)) = true ↔ 1 ≤ n) ∧
      (∀ c r o s, n < 1 → (ShotRequest.mk c r n o s).valid = false) ∧
      (∀ c r o s, 1 ≤ n → c ≠ 0 → (r = "goal" ∨ r = "miss") →
        (ShotRequest.mk c r n o s).valid = true) ∧
      (∀ conn c r now m, insertAccepted conn db "penalty_shots" (shotRow c r n) now =
        insertAccepted conn db "penalty_shots" (shotRow c r m) now) ∧
      (∀ col ∈ penaltyShotsSQL.columns, col.name = "attempt_number" →
        col.checkIn = none ∧ col.notNull = true) := by
  obtain ⟨⟨t, ht, hs, _⟩, _⟩ := sqlReachable_wellFormed db hdb
  have hbind : attemptNumberBinding.all (fun rule => rule.passes (FieldValue.int n)) = true ↔
      1 ≤ n := by
    simp only [attemptNumberBinding, List.all_cons, List.all_nil, Rule.passes, Bool.and_true,
      Bool.and_eq_true, bne_iff_ne, ne_eq, decide_eq_true_eq]
    constructor
    · exact fun h => h.2
    · exact fun h => ⟨by omega, h⟩
  refine ⟨hbind, ?_, ?_, ?_, by decide⟩
  · intro c r o s hn
    cases hv : (ShotRequest.mk c r n o s).valid with
    | false => rfl
    | true =>
      have := ((shotRequest_valid_iff c r n o s).mp hv).2.2
      omega
  · intro c r o s hn hc hr
    exact (shotRequest_valid_iff c r n o s).mpr ⟨hc, hr, hn⟩
  · intro conn c r now m
    rw [Bool.eq_iff_iff, insert_shot_accepted_iff conn db t c r n now ht hs,
      insert_shot_accepted_iff conn db t c r m now ht hs]

/-- C5, amended, at a concrete input: attempt number 0 on the database with one
contestant. -/
theorem attempt_number_checked_by_binding_only_witness :
    SqlReachable oneContestantDb ∧
      (ShotRequest.mk 1 "goal" 0 "" "").valid = false ∧
      insertAccepted sqlOpen oneContestantDb "penalty_shots" (shotRow 1 "goal" 0) "t1" =
        insertAccepted sqlOpen oneContestantDb "penalty_shots" (shotRow 1 "goal" 1) "t1" :=
  ⟨oneContestantDb_reachable,
   (attempt_number_checked_by_binding_only 0 oneContestantDb
      oneContestantDb_reachable).2.1 1 "goal" "" "" (by decide),
   (attempt_number_checked_by_binding_only 0 oneContestantDb
      oneContestantDb_reachable).2.2.2.1 sqlOpen 1 "goal" "t1" 1⟩

/-- C6 on the code. On the connection cmd/setup opens, foreign keys are not enforced: in
the database it creates, where no contestant exists, a shot for contestant 7 is accepted
and stored. The `FOREIGN KEY` clause of the table takes effect only on a connection that
switches enforcement on, where the same statement is refused. -/
theorem foreign_key_declared_not_enforced :
    sqlOpen.foreignKeys = false ∧
      contestantExists setupDb 7 = false ∧
      insertAccepted sqlOpen setupDb "penalty_shots" (shotRow 7 "goal" 1) "t1" = true ∧
      ((insertResult sqlOpen setupDb "penalty_shots" (shotRow 7 "goal" 1) "t1").rowsOf
          "penalty_shots").map (fun row => row.get "contestant_id") =
        [SqlValue.integer 7] ∧
      penaltyShotsSQL.foreignKeys =
        [{ column := "contestant_id", refTable := "contestants", refColumn := "id" }] ∧
      insertAccepted (Connection.mk true) setupDb "penalty_shots" (shotRow 7 "goal" 1) "t1"
        = false := by
  decide

/-- C8. In every reachable database, creating an aggregate row with only
`contestant_id = c` supplied is accepted exactly when no row has that contestant (and, on
a connection enforcing foreign keys, the contestant exists); the row stored has
`total_attempts = 0`, `successful_shots = 0` and `success_percentage = 0`, the value of the
derived-percentage rule at `total_attempts = 0`; and no two rows of `leaderboard_cache`
share a `contestant_id`, before or after. -/
theorem aggregate_zero_seeded (db : Database) (conn : Connection) (c : Int) (now : String)
    (hdb : SqlReachable db) :
    (insertAccepted conn db "leaderboard_cache" (seedRow c) now = true ↔
        ((∀ r ∈ db.rowsOf "leaderboard_cache", r.get "contestant_id" ≠ SqlValue.integer c) ∧
          (conn.foreignKeys = true → contestantExists db c = true))) ∧
      (∀ db2, insert conn db "leaderboard_cache" (seedRow c) now = Except.ok db2 →
        db2.rowsOf "leaderboard_cache" =
            db.rowsOf "leaderboard_cache" ++
              [[ ("contestant_id", SqlValue.integer c),
                 ("total_attempts", SqlValue.integer 0),
                 ("successful_shots", SqlValue.integer 0),
                 ("success_percentage", SqlValue.real (specSuccessPercentage 0 0)),
                 ("last_updated", SqlValue.text now) ]] ∧
          (db2.rowsOf "leaderboard_cache").Pairwise
            (fun a b => a.get "contestant_id" ≠ b.get "contestant_id")) ∧
      (∀ successfulShots, specSuccessPercentage successfulShots 0 = 0) ∧
      (db.rowsOf "leaderboard_cache").Pairwise
        (fun a b => a.get "contestant_id" ≠ b.get "contestant_id") := by
  obtain ⟨_, ⟨t, ht, hs, _, hpw⟩⟩ := sqlReachable_wellFormed db hdb
  have hspec : ∀ k, specSuccessPercentage k 0 = 0 := by
    intro k
    simp only [specSuccessPercentage, gt_iff_lt, lt_self_iff_false, if_false]
  have hrows : db.rowsOf "leaderboard_cache" = t.rows := by
    simp only [Database.rowsOf, ht]
  refine ⟨?_, ?_, hspec, ?_⟩
  · unfold insertAccepted
    rw [insert_seed_eq conn db t c now ht hs, hrows]
    have hall : t.rows.all (fun r => r.get "contestant_id" != SqlValue.integer c) = true ↔
        ∀ r ∈ t.rows, r.get "contestant_id" ≠ SqlValue.integer c := by
      simp only [List.all_eq_true, bne_iff_ne, ne_eq]
    rw [← hall]
    cases hu : t.rows.all (fun r => r.get "contestant_id" != SqlValue.integer c) <;>
      cases hfk : conn.foreignKeys <;> cases hex : contestantExists db c <;> simp
  · intro db2 hins
    have hreach : SqlReachable db2 :=
      SqlReachable.insert conn db "leaderboard_cache" (seedRow c) now db2 hdb hins
    obtain ⟨_, ⟨t2, ht2, _, _, hpw2⟩⟩ := sqlReachable_wellFormed db2 hreach
    obtain ⟨t1, row, hf1, hf2, hb, _⟩ :=
      insert_findTable_same conn db "leaderboard_cache" (seedRow c) now db2 hins
    rw [ht] at hf1
    cases hf1
    rw [hs, buildRow_seed] at hb
    cases hb
    rw [ht2] at hf2
    cases hf2
    constructor
    · simp only [Database.rowsOf, ht2, ht, Table.push, hspec]
      rfl
    · simp only [Database.rowsOf, ht2]
      exact hpw2
  · rw [hrows]; exact hpw

/-- C8 at a concrete input: the aggregate row of contestant 1, created on the database with
one contestant on a connection that enforces foreign keys. -/
theorem aggregate_zero_seeded_witness :
    SqlReachable oneContestantDb ∧
      insertAccepted (Connection.mk true) oneContestantDb "leaderboard_cache" (seedRow 1) "t1"
        = true :=
  ⟨oneContestantDb_reachable,
   (aggregate_zero_seeded oneContestantDb (Connection.mk true) 1 "t1"
      oneContestantDb_reachable).1.mpr ⟨by decide, fun _ => by decide⟩⟩

end GolaScoreKeeper
